import Mathlib

/-!
# Shallow embedding of the HRAttendance attendance-resolution engine

This file embeds, in Lean, the attendance engine of the repository
(`src/unnamed/part_003`, the `attendance-utils` module that exports
`processAttendanceRecords`), together with the scope-parsing modules
(`src/unnamed/part_000`, the shared `rule-scope` module, and
`src/server/rule-scope.ts`), and proves properties of the embedding.

Modelling conventions, used throughout:

* A JavaScript `Date` is its millisecond timestamp, an `Int`.  Reading UTC
  calendar fields of a timestamp is floor-division/floor-modulo arithmetic,
  which is what JS specifies.
* A JavaScript `number` that can be `NaN` is modelled as `Option Int`
  (`JSNum`), `none` standing for `NaN`; arithmetic propagates `none` and
  every comparison with `none` is `false`, as in JS.  `Number(string)`
  coercion is modelled for the grammar the engine's inputs exercise:
  optional surrounding whitespace around decimal digits, and the empty /
  all-whitespace string (which coerces to `0`); every other string is
  modelled as `NaN`.  Signs, decimal points, exponents and hex literals are
  out of scope of the model.
* JS `Map`s are association lists with `set` = replace-first-or-append and
  `get` = find-first, which reproduces JS insertion-order semantics.
  The engine's per-day buckets are keyed in the source by the formatted
  local-day string (`formatLocalDay`); the embedding keys them by the local
  day index (milliseconds divided by 86400000).  `formatLocalDay` is an
  injective function of the day index, so the two keyings coincide.
* JS `Array.prototype.sort` with the comparators the engine uses
  (`a.t - b.t`, `b.priority - a.priority`) is a stable sort; it is modelled
  by a stable insertion sort `sortByLe`.
* Punch objects are compared in the source by reference (`!==`).  The
  schema gives every biometric punch a unique serial `id`; the embedding
  carries that `id` and compares punches by it.
* Fractional-hour fields (`totalHours`) are modelled as exact rationals
  (`Option ℚ`, `none` = `NaN`); no claim in scope depends on the rounding
  of double division.
-/

namespace HRA

/-! ## JS number model -/

/-- A JS `number` restricted to the integral values the engine manipulates;
`none` models `NaN`. -/
abbrev JSNum := Option Int

/-- JS `+` on possibly-NaN numbers. -/
def jsAdd (a b : JSNum) : JSNum := match a, b with
  | some x, some y => some (x + y)
  | _, _ => none

/-- JS `-` on possibly-NaN numbers. -/
def jsSub (a b : JSNum) : JSNum := match a, b with
  | some x, some y => some (x - y)
  | _, _ => none

/-- JS `Math.max(0, x)`: `NaN` propagates. -/
def jsMax0 (a : JSNum) : JSNum := a.map (fun v => max 0 v)

/-- JS `Math.min(x, y)`: `NaN` propagates. -/
def jsMin (a b : JSNum) : JSNum := match a, b with
  | some x, some y => some (min x y)
  | _, _ => none

/-- JS `Math.max(x, y)`: `NaN` propagates. -/
def jsMax (a b : JSNum) : JSNum := match a, b with
  | some x, some y => some (max x y)
  | _, _ => none

/-- JS `<` : any comparison with `NaN` is false. -/
def jsLtB (a b : JSNum) : Bool := match a, b with
  | some x, some y => decide (x < y)
  | _, _ => false

/-- JS `>` : any comparison with `NaN` is false. -/
def jsGtB (a b : JSNum) : Bool := match a, b with
  | some x, some y => decide (y < x)
  | _, _ => false

/-- JS `<=` : any comparison with `NaN` is false. -/
def jsLeB (a b : JSNum) : Bool := match a, b with
  | some x, some y => decide (x ≤ y)
  | _, _ => false

/-- JS `>=` : any comparison with `NaN` is false. -/
def jsGeB (a b : JSNum) : Bool := match a, b with
  | some x, some y => decide (y ≤ x)
  | _, _ => false

/-- JS `===` on numbers: `NaN === NaN` is false. -/
def jsEqB (a b : JSNum) : Bool := match a, b with
  | some x, some y => decide (x = y)
  | _, _ => false

/-- `Math.ceil(a / b)` for an integer millisecond (or second) quantity `a`
and a positive literal divisor `b`; `NaN` propagates. -/
def jsCeilDiv (a : JSNum) (b : Int) : JSNum := a.map (fun v => -((-v).fdiv b))

/-! ### Kernel-computable string primitives

The JS string operations the engine uses (`trim`, `split`, `startsWith`,
`slice`, `toLowerCase`) are re-implemented structurally over the character
list of the string so that concrete witnesses evaluate inside the kernel;
each matches the JS operation on the engine's inputs (JS `trim` also strips
some exotic Unicode whitespace, which never occurs here). -/

/-- JS `String.prototype.trim` (ASCII whitespace). -/
def jsTrim (s : String) : String :=
  String.mk (((s.toList.dropWhile Char.isWhitespace).reverse.dropWhile
    Char.isWhitespace).reverse)

/-- Split a character list at every character satisfying `p` (JS
`split` with a single-character-class separator: empty fields are kept,
the empty string yields `[""]`). -/
def splitCharsBy (p : Char → Bool) : List Char → List Char → List (List Char)
  | [], acc => [acc.reverse]
  | c :: cs, acc =>
    if p c then acc.reverse :: splitCharsBy p cs []
    else splitCharsBy p cs (c :: acc)

/-- JS `String.prototype.split` on a character-class separator. -/
def splitOnPred (p : Char → Bool) (s : String) : List String :=
  (splitCharsBy p s.toList []).map String.mk

/-- JS `String.prototype.split` on a one-character separator string. -/
def splitOnChar (sep : Char) (s : String) : List String :=
  splitOnPred (fun c => c = sep) s

/-- JS `String.prototype.startsWith` (for the ASCII prefixes the engine
tests). -/
def strStartsWith (s pre : String) : Bool :=
  pre.toList.isPrefixOf s.toList

/-- JS `String.prototype.slice(n)` for an ASCII prefix length `n` (used
as `scope.replace("dept:", "")` under a `startsWith` guard). -/
def strDropChars (s : String) (n : Nat) : String :=
  String.mk (s.toList.drop n)

/-- JS `String.prototype.toLowerCase` (ASCII). -/
def toLowerStr (s : String) : String :=
  String.mk (s.toList.map Char.toLower)

/-- Lexicographic comparison of character lists by code point (JS `<` on
strings, for the code points the engine compares). -/
def charListLt : List Char → List Char → Bool
  | [], [] => false
  | [], _ :: _ => true
  | _ :: _, [] => false
  | a :: as, b :: bs =>
    if a.toNat < b.toNat then true
    else if b.toNat < a.toNat then false
    else charListLt as bs

/-- JS `<` on strings. -/
def strLt (a b : String) : Bool := charListLt a.toList b.toList

/-- The numeric value of a non-empty all-digit string. -/
def digitsToNat? (s : String) : Option Nat :=
  let cs := s.toList
  if cs ≠ [] ∧ cs.all Char.isDigit then
    some (cs.foldl (fun a c => a * 10 + (c.toNat - 48)) 0)
  else none

/-- Partial model of JS `Number(string)` (see the header): surrounding
whitespace then decimal digits, or a blank string (value `0`); anything
else is `NaN`. -/
def jsNumberOfString (s : String) : JSNum :=
  let t := jsTrim s
  if t = "" then some 0
  else match digitsToNat? t with
    | some n => some (n : Int)
    | none => none

/-- JS `String(number)`: `NaN` prints as `"NaN"`. -/
def jsNumToString : JSNum → String
  | none => "NaN"
  | some n => toString n

/-- JS `String.prototype.padStart(2, "0")`. -/
def padStart2Zero (s : String) : String :=
  if s.length < 2 then String.mk (List.replicate (2 - s.length) '0') ++ s else s

/-! ## Stable sort (JS `Array.prototype.sort`)

JS `sort` with a consistent comparator is stable; `sortByLe le` is the
stable sort that puts `a` before `b` whenever `le a b` and keeps the
original order of ties. -/

/-- Insert `x` after every element `y` of an already-sorted list with
`le y x`. -/
def insertLe (le : α → α → Bool) (x : α) : List α → List α
  | [] => [x]
  | y :: ys => if le y x then y :: insertLe le x ys else x :: y :: ys

/-- Stable insertion sort by the boolean preorder `le`. -/
def sortByLe (le : α → α → Bool) (l : List α) : List α :=
  l.foldl (fun acc x => insertLe le x acc) []

/-! ## `src/unnamed/part_000` (second revision): the shared `rule-scope`
module, imported by the engine as `@shared/rule-scope`. -/

/-- The parse result of a scope expression.  The source is a tagged union
`{ type: "all" | "emp" | "dept" | "sector", values: string[] }`; the tag is
kept as a string. -/
structure RuleScope where
  rtype : String
  values : List String
deriving Repr, DecidableEq

namespace RuleScopeShared

/-- `normalizeScopeValue` of the shared module. -/
def normalizeScopeValue (value : String) : String := jsTrim value

/-- `normalizeEmpCode` of the shared module: digit-only codes go through
`String(Number(code))`, which strips leading zeros (and collapses an
all-zero code to `"0"`); other codes are only trimmed.  (`String(Number ·)`
and decimal re-printing agree for codes of realistic length.) -/
def normalizeEmpCode (value : String) : String :=
  let trimmed := normalizeScopeValue value
  if trimmed = "" then ""
  else match digitsToNat? trimmed with
    | some n => toString n
    | none => trimmed

/-- `splitScopeValues` of the shared module. -/
def splitScopeValues (raw : String) : List String :=
  ((splitOnChar ',' raw).map normalizeScopeValue).filter (fun v => v ≠ "")

/-- `parseRuleScope` of the shared module. -/
def parseRuleScope (scope : String) : RuleScope :=
  if scope = "" ∨ scope = "all" then ⟨"all", []⟩
  else if strStartsWith scope "emp:" then
    ⟨"emp", ((splitScopeValues (strDropChars scope 4)).map normalizeEmpCode).filter (fun v => v ≠ "")⟩
  else if strStartsWith scope "dept:" then
    ⟨"dept", splitScopeValues (strDropChars scope 5)⟩
  else if strStartsWith scope "sector:" then
    ⟨"sector", splitScopeValues (strDropChars scope 7)⟩
  else ⟨"all", []⟩

end RuleScopeShared

/-! ## `src/server/rule-scope.ts` -/

namespace RuleScopeServer

/-- `normalizeEmpCode` of the server module: leading zeros of digit-only
codes are stripped by regex, an all-zero code becomes `"0"`. -/
def normalizeEmpCode (value : String) : String :=
  let trimmed := jsTrim value
  if trimmed = "" then ""
  else if trimmed.toList.all Char.isDigit then
    let stripped := String.mk (trimmed.toList.dropWhile (fun c => c = '0'))
    if stripped = "" then "0" else stripped
  else trimmed

/-- `parseEmpScope` of the server module.  The source accumulates into a JS
`Set`; the embedding keeps the set as its insertion-ordered duplicate-free
list. -/
def parseEmpScope (scope : String) : List String :=
  if strStartsWith scope "emp:" then
    let raw := splitOnChar ',' (strDropChars scope 4)
    raw.foldl
      (fun set token =>
        let normalized := normalizeEmpCode token
        if normalized ≠ "" ∧ ¬ set.contains normalized then set ++ [normalized] else set)
      []
  else []

end RuleScopeServer

/-! ## Calendar arithmetic

JS `Date.UTC` and the `getUTC*` field readers, restricted to whole days:
conversions between a day index (days since 1970-01-01) and the civil
year/month/day, by the standard Gregorian-era algorithm. -/

/-- Civil date to day index (days since 1970-01-01). -/
def daysFromCivil (y m d : Int) : Int :=
  let y' := if m ≤ 2 then y - 1 else y
  let era := y'.fdiv 400
  let yoe := y' - era * 400
  let mp := (m + 9).emod 12
  let doy := (153 * mp + 2).fdiv 5 + d - 1
  let doe := yoe * 365 + yoe.fdiv 4 - yoe.fdiv 100 + doy
  era * 146097 + doe - 719468

/-- Day index to civil `(year, month, day)`. -/
def civilFromDays (z : Int) : Int × Int × Int :=
  let z' := z + 719468
  let era := z'.fdiv 146097
  let doe := z' - era * 146097
  let yoe := (doe - doe.fdiv 1460 + doe.fdiv 36524 - doe.fdiv 146096).fdiv 365
  let y := yoe + era * 400
  let doy := doe - (365 * yoe + yoe.fdiv 4 - yoe.fdiv 100)
  let mp := (5 * doy + 2).fdiv 153
  let d := doy - (153 * mp + 2).fdiv 5 + 1
  let m := if mp < 10 then mp + 3 else mp - 9
  (if m ≤ 2 then y + 1 else y, m, d)

/-- `formatLocalDay` (and the identical per-punch date-key construction) of
the engine, as a function of the day index: `YYYY-MM-DD` with unpadded year
and zero-padded month and day, exactly as the source builds it from
`getUTCFullYear/Month/Date`. -/
def formatDayIdx (dayIdx : Int) : String :=
  let c := civilFromDays dayIdx
  toString c.1 ++ "-" ++ padStart2Zero (toString c.2.1) ++ "-" ++ padStart2Zero (toString c.2.2)

/-- Parsing of a well-formed `YYYY-MM-DD` date string into its day index:
`split("-").map(Number)` then `Date.UTC(y, m-1, d)`, for in-range fields.
(The `new Date(isoString)` parses the engine also performs agree with this
on well-formed zero-padded ISO dates.) -/
def parseDateToDayIdx (s : String) : Int :=
  let parts := (splitOnChar '-' s).map (fun p => ((jsNumberOfString p).getD 0))
  daysFromCivil (parts.getD 0 0) (parts.getD 1 0) (parts.getD 2 0)

/-! ## `src/unnamed/part_003`: time-string utilities -/

/-- `normalizeTimeToHms`: trim, split on `":"`, coerce each of the first
three fields (missing fields default to the string `"0"`) through
`String(Number(·))`, and zero-pad to two characters. -/
def normalizeTimeToHms (value : String) : String :=
  let parts := splitOnChar ':' (jsTrim value)
  let rawH := parts.getD 0 "0"
  let rawM := parts.getD 1 "0"
  let rawS := parts.getD 2 "0"
  let h := padStart2Zero (jsNumToString (jsNumberOfString rawH))
  let m := padStart2Zero (jsNumToString (jsNumberOfString rawM))
  let s := padStart2Zero (jsNumToString (jsNumberOfString rawS))
  h ++ ":" ++ m ++ ":" ++ s

/-- `timeStringToSeconds`: normalize, re-split, coerce through `Number`,
and combine; a `"NaN"` component poisons the result. -/
def timeStringToSeconds (value : String) : JSNum :=
  let normalized := normalizeTimeToHms value
  let nums := (splitOnChar ':' normalized).map jsNumberOfString
  let h := nums.getD 0 none
  let m := nums.getD 1 none
  let s := nums.getD 2 none
  jsAdd (jsAdd (h.map (fun v => v * 3600)) (m.map (fun v => v * 60))) s

/-- `secondsToHms`, extended to a possibly-NaN argument the way JS string
templating renders it. -/
def secondsToHms (value : JSNum) : String :=
  match value with
  | none => "NaN:NaN:NaN"
  | some v =>
    let total := max 0 v
    let h := padStart2Zero (toString (total.fdiv 3600))
    let m := padStart2Zero (toString ((total.tmod 3600).fdiv 60))
    let s := padStart2Zero (toString (total.tmod 60))
    h ++ ":" ++ m ++ ":" ++ s

/-! ## `src/unnamed/part_003`: `computeAdjustmentEffects` -/

/-- `AdjustmentInput` of the source. -/
structure AdjustmentInput where
  type : String
  fromTime : String
  toTime : String
deriving Repr, DecidableEq

/-- The record returned by `computeAdjustmentEffects`.  `missionStartSeconds`
and `missionEndSeconds` are `null`-able (outer `Option`) possibly-NaN
numbers (inner `JSNum`), as are the stamp fields. -/
structure AdjustmentEffects where
  effectiveShiftStartSeconds : JSNum
  effectiveShiftEndSeconds : JSNum
  missionStartSeconds : Option JSNum
  missionEndSeconds : Option JSNum
  suppressPenalties : Bool
  halfDayExcused : Bool
  firstStampSeconds : Option JSNum
  lastStampSeconds : Option JSNum
deriving Repr, DecidableEq

/-- The mutable accumulator of the `for (const adjustment of adjustments)`
loop. -/
structure AdjState where
  effStart : JSNum
  effEnd : JSNum
  missionStart : Option JSNum
  missionEnd : Option JSNum
  suppress : Bool
  halfDay : Bool
deriving Repr, DecidableEq

/-- One iteration of the adjustment loop (the body for a single
`adjustment`). -/
def adjStep (shiftStartSeconds shiftEndSeconds : JSNum) (st : AdjState)
    (a : AdjustmentInput) : AdjState :=
  let fromSeconds := timeStringToSeconds a.fromTime
  let toSeconds := timeStringToSeconds a.toTime
  let st1 :=
    if a.type = "اذن صباحي" then
      { st with effStart := jsAdd st.effStart (jsMax0 (jsSub toSeconds fromSeconds)) }
    else st
  let st2 :=
    if a.type = "اذن مسائي" then
      { st1 with effEnd := jsSub st1.effEnd (jsMax0 (jsSub toSeconds fromSeconds)) }
    else st1
  let st3 :=
    if a.type = "إجازة نص يوم" then
      let stA :=
        if jsEqB fromSeconds shiftStartSeconds then
          { st2 with effStart := toSeconds, halfDay := true }
        else st2
      if jsEqB toSeconds shiftEndSeconds then
        { stA with effEnd := fromSeconds, halfDay := true }
      else stA
    else st2
  if a.type = "مأمورية" then
    { st3 with
      missionStart := some (match st3.missionStart with
        | none => fromSeconds
        | some m => jsMin m fromSeconds),
      missionEnd := some (match st3.missionEnd with
        | none => toSeconds
        | some m => jsMax m toSeconds),
      suppress := true }
  else st3

/-- `computeAdjustmentEffects` of the source.  `checkInSeconds` and
`checkOutSeconds` are `null`-able integers (the engine always passes
seconds-of-day values derived from valid punches). -/
def computeAdjustmentEffects (shiftStart shiftEnd : String)
    (adjustments : List AdjustmentInput)
    (checkInSeconds checkOutSeconds : Option Int) : AdjustmentEffects :=
  let shiftStartSeconds := timeStringToSeconds shiftStart
  let shiftEndSeconds := timeStringToSeconds shiftEnd
  let st := adjustments.foldl (adjStep shiftStartSeconds shiftEndSeconds)
    ⟨shiftStartSeconds, shiftEndSeconds, none, none, false, false⟩
  let allFirstCandidates : List JSNum :=
    (match checkInSeconds with | some v => [some v] | none => []) ++
    (match st.missionStart with | some j => [j] | none => [])
  let allLastCandidates : List JSNum :=
    (match checkOutSeconds with | some v => [some v] | none => []) ++
    (match st.missionEnd with | some j => [j] | none => [])
  let firstStampSeconds : Option JSNum :=
    match allFirstCandidates with
    | [] => none
    | c :: cs => some (cs.foldl jsMin c)
  let lastStampSeconds : Option JSNum :=
    match allLastCandidates with
    | [] => none
    | c :: cs => some (cs.foldl jsMax c)
  ⟨st.effStart, st.effEnd, st.missionStart, st.missionEnd, st.suppress,
    st.halfDay, firstStampSeconds, lastStampSeconds⟩

/-! ## `src/unnamed/part_003`: note helpers, penalty and overtime helpers -/

/-- `Array.prototype.join(sep)`. -/
def joinSep (sep : String) : List String → String
  | [] => ""
  | [x] => x
  | x :: xs => x ++ sep ++ joinSep sep xs

/-- `appendNotes`: split the existing notes on Arabic or Latin commas,
trim, drop blanks, then extend (as an insertion-ordered set) with the
additions, and re-join with `"، "`. -/
def appendNotes (existingNotes : Option String) (additions : List String) : String :=
  let existing := ((splitOnPred (fun c => c = '،' ∨ c = ',') (existingNotes.getD "")).map
    jsTrim).filter (fun n => n ≠ "")
  let set := (existing ++ additions).foldl
    (fun acc n => if acc.contains n then acc else acc ++ [n]) []
  joinSep "، " set

/-- `composeDailyNotes` of the source. -/
def composeDailyNotes (baseNotes : Option String) (extraNotes leaveNotes : List String)
    (hasOvernightStay : Bool) : String :=
  if hasOvernightStay then "مبيت"
  else appendNotes baseNotes (extraNotes ++ leaveNotes)

/-- `buildPunchConsumptionKey` of the source. -/
def buildPunchConsumptionKey (employeeCode : String) (punchDatetime : Int) : String :=
  employeeCode ++ "__" ++ toString punchDatetime

/-- `computeAutomaticNotes` of the source. -/
def computeAutomaticNotes (existingNotes : Option String)
    (checkInExists checkOutExists missingStampExcused earlyLeaveExcused
      checkOutBeforeEarlyLeave : Bool) : String :=
  let notes :=
    (if checkInExists ∧ ¬ checkOutExists ∧ ¬ missingStampExcused then ["سهو بصمة"] else []) ++
    (if ¬ checkInExists ∧ checkOutExists ∧ ¬ missingStampExcused then ["سهو بصمة دخول"] else []) ++
    (if checkOutExists ∧ checkOutBeforeEarlyLeave ∧ ¬ earlyLeaveExcused then ["انصراف مبكر"] else [])
  appendNotes existingNotes notes

/-- A penalty entry `{type, value, minutes?}`; `value` is one of the exact
dyadic penalty weights, kept as a rational. -/
structure Penalty where
  type : String
  value : ℚ
  minutes : Option JSNum
deriving Repr, DecidableEq

/-- `computePenaltyEntries` of the source. -/
def computePenaltyEntries (isExcused : Bool) (latePenaltyValue : ℚ)
    (lateMinutes : JSNum) (missingCheckout earlyLeaveTriggered : Bool) : List Penalty :=
  if isExcused then []
  else
    (if latePenaltyValue > 0 then [⟨"تأخير", latePenaltyValue, some lateMinutes⟩] else []) ++
    (if missingCheckout then [⟨"سهو بصمة", 1/2, none⟩]
     else if earlyLeaveTriggered then [⟨"انصراف مبكر", 1/2, none⟩] else [])

/-- `computeOvertimeHours` of the source: whole hours of the checkout
seconds beyond one hour past the shift end, in pure seconds-of-day
arithmetic. -/
def computeOvertimeHours (shiftEnd : String) (checkOutSeconds : Option Int) : JSNum :=
  match checkOutSeconds with
  | none => some 0
  | some co =>
    let shiftEndSeconds := timeStringToSeconds shiftEnd
    let overtimeStartSeconds := jsAdd shiftEndSeconds (some 3600)
    if jsLeB (some co) overtimeStartSeconds then some 0
    else (jsSub (some co) overtimeStartSeconds).map (fun em => (em.fdiv 60).fdiv 60)

/-! ## Data model (`@shared/schema`, restricted to the fields the engine
reads) -/

/-- An employee row.  `sector`/`department`/`section`/`branch` are nullable
in the schema; the source's `section` field is spelled `sectionName` here
because `section` is a Lean keyword. -/
structure Employee where
  code : String
  sector : Option String
  department : Option String
  sectionName : Option String
  branch : Option String
  shiftStart : String
deriving Repr, DecidableEq

/-- A biometric punch; `punchDatetime` is the millisecond timestamp of the
instant and `id` is the schema's unique serial key, used to model JS
reference identity of punch objects. -/
structure BiometricPunch where
  id : Int
  employeeCode : String
  punchDatetime : Int
deriving Repr, DecidableEq

/-- The `params` payload of a special rule; absent fields are the empty
string (JS `undefined` and `""` are handled identically by the engine's
`||` fallbacks and `typeof`-guarded `toLowerCase`). -/
structure RuleParams where
  shiftStart : String
  shiftEnd : String
  leaveType : String
deriving Repr, DecidableEq

/-- A special rule. -/
structure SpecialRule where
  id : Int
  scope : String
  ruleType : String
  startDate : String
  endDate : String
  priority : Int
  params : RuleParams
deriving Repr, DecidableEq

/-- An adjustment row. -/
structure Adjustment where
  employeeCode : String
  date : String
  type : String
  fromTime : String
  toTime : String
deriving Repr, DecidableEq

/-- A leave row. -/
structure Leave where
  type : String
  scope : String
  scopeValue : Option String
  startDate : String
  endDate : String
  note : Option String
deriving Repr, DecidableEq

/-- The attendance record the engine emits (the fields `part_003` writes). -/
structure AttendanceRecord where
  id : Int
  employeeCode : String
  date : String
  checkIn : Option Int
  checkOut : Option Int
  totalHours : Option ℚ
  status : String
  overtimeHours : Int
  penalties : List Penalty
  isOvernight : Bool
  notes : String
  missionStart : Option String
  missionEnd : Option String
  halfDayExcused : Bool
deriving Repr, DecidableEq

/-! ## JS `Map`s as association lists (insertion ordered) -/

/-- JS `Map.prototype.get`. -/
def mapFind? [DecidableEq κ] (m : List (κ × α)) (k : κ) : Option α :=
  (m.find? (fun e => decide (e.1 = k))).map Prod.snd

/-- `Map.prototype.get` with a default (the `|| []` idiom). -/
def mapGetD [DecidableEq κ] (m : List (κ × α)) (k : κ) (d : α) : α :=
  (mapFind? m k).getD d

/-- JS `Map.prototype.set`: replace the key's entry in place, or append a
new entry. -/
def mapSet [DecidableEq κ] : List (κ × α) → κ → α → List (κ × α)
  | [], k, v => [(k, v)]
  | (k', v') :: rest, k, v =>
    if k' = k then (k, v) :: rest else (k', v') :: mapSet rest k v

/-! ## `src/unnamed/part_003`: the engine -/

/-- `filterConsumedPunches` of the source (`consumed` is the `Set` for the
day's key, or absent). -/
def filterConsumedPunches (punches : List BiometricPunch)
    (consumed : Option (List String)) : List BiometricPunch :=
  match consumed with
  | none => punches
  | some c =>
    if c.length = 0 then punches
    else punches.filter (fun p =>
      ¬ c.contains (buildPunchConsumptionKey p.employeeCode p.punchDatetime))

/-- `parseEmployeeScope` of the engine (lines 211–220): employee-level
scope matching with an early `true` for the empty or `all` scope and a
fail-closed `false` for unrecognized scopes. -/
def parseEmployeeScope (scope : String) (employee : Employee)
    (normalizedEmployeeCode : String) : Bool :=
  if scope = "" ∨ scope = "all" then true
  else if strStartsWith scope "dept:" then
    employee.department == some (strDropChars scope 5)
  else if strStartsWith scope "sector:" then
    employee.sector == some (strDropChars scope 7)
  else if strStartsWith scope "emp:" then
    let parsedScope := RuleScopeShared.parseRuleScope scope
    decide (parsedScope.rtype = "emp") && parsedScope.values.contains normalizedEmployeeCode
  else false

/-- `matchesRuleScope` of the engine (exported wrapper, lines 716–719). -/
def matchesRuleScope (scope : String) (employee : Employee) : Bool :=
  parseEmployeeScope scope employee (jsTrim employee.code)

/-- The date-window test of the `activeRules` filter: the day is inside
`[rule.startDate, rule.endDate]` (both compared as UTC midnights). -/
def ruleActiveOn (r : SpecialRule) (dayIdx : Int) : Bool :=
  decide (parseDateToDayIdx r.startDate ≤ dayIdx) &&
  decide (dayIdx ≤ parseDateToDayIdx r.endDate)

/-- The scope test of the `activeRules` filter (lines 424–432): unlike
`parseEmployeeScope` it has no empty-scope special case and falls through
failed prefixed comparisons. -/
def ruleScopeMatchesActive (scope : String) (employee : Employee)
    (normCode : String) : Bool :=
  if scope = "all" then true
  else if strStartsWith scope "dept:" && employee.department == some (strDropChars scope 5) then true
  else if strStartsWith scope "sector:" && employee.sector == some (strDropChars scope 7) then true
  else if strStartsWith scope "emp:" then
    let parsedScope := RuleScopeShared.parseRuleScope scope
    decide (parsedScope.rtype = "emp") && parsedScope.values.contains normCode
  else false

/-- The comparator of the `activeRules` sort: descending priority, stable.
(`b.priority - a.priority`; absent priorities do not occur in the model, so
the `|| 0` fallbacks are identities.) -/
def rulePriorityLe (a b : SpecialRule) : Bool := decide (b.priority ≤ a.priority)

/-- `activeRules` of the day loop: filter to rules whose window contains
the day and whose scope matches, stably sorted by descending priority. -/
def activeRulesFor (rules : List SpecialRule) (employee : Employee)
    (normCode : String) (dayIdx : Int) : List SpecialRule :=
  sortByLe rulePriorityLe
    (rules.filter (fun r => ruleActiveOn r dayIdx && ruleScopeMatchesActive r.scope employee normCode))

/-- The shift-window resolution of the day loop (lines 435–447). -/
def shiftWindowOf (activeRules : List SpecialRule) (isSaturday : Bool) :
    String × String :=
  match activeRules.find? (fun r => decide (r.ruleType = "custom_shift")) with
  | some shiftRule =>
    ((if shiftRule.params.shiftStart ≠ "" then shiftRule.params.shiftStart else "09:00"),
     (if shiftRule.params.shiftEnd ≠ "" then shiftRule.params.shiftEnd else "17:00"))
  | none => if isSaturday then ("10:00", "16:00") else ("09:00", "17:00")

/-- `matchesScope` of the per-employee closure (lines 350–358). -/
def matchesLeaveScope (employee : Employee) (scope : String)
    (value : Option String) : Bool :=
  if scope = "all" then true
  else if scope = "sector" then value == employee.sector
  else if scope = "department" then value == employee.department
  else if scope = "section" then value == employee.sectionName
  else if scope = "branch" then value == employee.branch
  else if scope = "emp" then value == some employee.code
  else false

/-- `appliesLeave` of the per-employee closure (lines 359–363); the
`scopeValue || null` coercion turns an empty value into `null`. -/
def appliesLeave (employee : Employee) (leave : Leave) (dateStr : String) : Bool :=
  if strLt dateStr leave.startDate || strLt leave.endDate dateStr then false
  else if leave.type = "collections" ∧ employee.sector ≠ some "التحصيل" then false
  else matchesLeaveScope employee leave.scope
    (match leave.scopeValue with
     | some s => if s = "" then none else some s
     | none => none)

/-! ### Local-time helpers (UTC-field arithmetic on millisecond values) -/

/-- `getUTCHours` of a millisecond value. -/
def hourOfMs (m : Int) : Int := (m.fdiv 3600000).emod 24

/-- `getUTCMinutes` of a millisecond value. -/
def minuteOfMs (m : Int) : Int := (m.fdiv 60000).emod 60

/-- `getUTCHours()*3600 + getUTCMinutes()*60 + getUTCSeconds()` of a
millisecond value. -/
def localSecondsOfDay (m : Int) : Int := (m.fdiv 1000).emod 86400

/-- `toUtcFromSeconds(baseDate, seconds)` of the engine: split `seconds`
into JS hour/minute/second fields (`Math.floor` on a truncating `%`),
rebuild the instant with `Date.UTC` on the base day, then add the offset. -/
def toUtcFromSeconds (dayMs offset s : Int) : Int :=
  dayMs + ((s.fdiv 3600) * 3600 + ((s.tmod 3600).fdiv 60) * 60 + s.tmod 60) * 1000 +
    offset * 60000

/-- `Number.parseInt(x, 10)` for the strings the engine feeds it (leading
whitespace, optional sign, then a digit prefix). -/
def jsParseInt (s : String) : Option Int :=
  let cs := s.toList.dropWhile Char.isWhitespace
  let signed : Bool × List Char := match cs with
    | '-' :: rest => (true, rest)
    | '+' :: rest => (false, rest)
    | _ => (false, cs)
  let ds := signed.2.takeWhile Char.isDigit
  if ds = [] then none
  else
    let n : Int := ds.foldl (fun a c => a * 10 + ((c.toNat : Int) - 48)) 0
    some (if signed.1 then -n else n)

/-- `Number.parseInt((employee.shiftStart || "09:00").split(":")[0], 10)`. -/
def shiftStartHourOf (employee : Employee) : Option Int :=
  jsParseInt ((splitOnChar ':'
    (if employee.shiftStart = "" then "09:00" else employee.shiftStart)).getD 0 "")

/-- `arrivalWindows[shiftStartHour] || arrivalWindows[9]`. -/
def arrivalWindowFor (shiftStartHour : Option Int) : Int × Int :=
  match shiftStartHour with
  | some 9 => (6, 12)
  | some 8 => (5, 11)
  | some 7 => (4, 10)
  | _ => (6, 12)

/-- `isOvernightPunch` on a local millisecond value. -/
def isOvernightPunch (localMs : Int) : Bool :=
  decide (0 ≤ hourOfMs localMs) && decide (hourOfMs localMs ≤ 5)

/-- `isNormalArrivalPunch` on a local millisecond value. -/
def isNormalArrivalPunch (aw : Int × Int) (localMs : Int) : Bool :=
  decide (aw.1 ≤ hourOfMs localMs) && decide (hourOfMs localMs ≤ aw.2)

/-- `isEarlyShiftEdge` on a local millisecond value. -/
def isEarlyShiftEdge (shiftStartHour : Option Int) (localMs : Int) : Bool :=
  (match shiftStartHour with | some h => decide (h ≤ 7) | none => false) &&
  ((decide (hourOfMs localMs = 4) && decide (30 ≤ minuteOfMs localMs)) ||
   (decide (hourOfMs localMs = 5) && decide (minuteOfMs localMs = 0)))

/-- The punch-sort comparator `a.punchDatetime - b.punchDatetime`. -/
def punchLeB (a b : BiometricPunch) : Bool :=
  decide (a.punchDatetime ≤ b.punchDatetime)

/-- The per-employee bucketing: keep the employee's punches (raw code
equality), bucket by local day index, then sort each bucket by time. -/
def bucketPunchesFor (offset : Int) (employee : Employee)
    (punches : List BiometricPunch) : List (Int × List BiometricPunch) :=
  let filtered := punches.filter (fun p => p.employeeCode = employee.code)
  let buckets := filtered.foldl
    (fun m p =>
      let k := (p.punchDatetime - offset * 60000).fdiv 86400000
      mapSet m k (mapGetD m k [] ++ [p]))
    []
  buckets.map (fun e => (e.1, sortByLe punchLeB e.2))

/-- The mutable state of the overnight-reclassification pass: the punch
buckets, the per-day extra notes, and the per-day consumed-key sets. -/
structure OvernightState where
  buckets : List (Int × List BiometricPunch)
  extraNotes : List (Int × List String)
  consumed : List (Int × List String)
deriving Repr, DecidableEq

/-- `markPunchConsumed`: `Set.add` on the day's consumed-key set. -/
def consumedInsert (consumed : List (Int × List String)) (dayIdx : Int)
    (key : String) : List (Int × List String) :=
  let existing := mapGetD consumed dayIdx []
  mapSet consumed dayIdx (if existing.contains key then existing else existing ++ [key])

/-- `addExtraNote`: push onto the day's note list. -/
def notesPush (notes : List (Int × List String)) (dayIdx : Int)
    (note : String) : List (Int × List String) :=
  mapSet notes dayIdx (mapGetD notes dayIdx [] ++ [note])

/-- The two `punchesByDate.set` writes of the move branch (lines 399–406):
drop the moved punch from the day's snapshot list, append it re-sorted to
the previous day's snapshot list, and store both. -/
def writeBuckets (buckets : List (Int × List BiometricPunch)) (dayIdx : Int)
    (dayPunches prevPunches : List BiometricPunch) (punch : BiometricPunch) :
    List (Int × List BiometricPunch) :=
  let updatedDayPunches := sortByLe punchLeB
    (dayPunches.filter (fun item => item.id ≠ punch.id))
  let updatedPrevPunches := sortByLe punchLeB (prevPunches ++ [punch])
  mapSet (mapSet buckets dayIdx updatedDayPunches) (dayIdx - 1) updatedPrevPunches

/-- The `forEach` body of the overnight pass (lines 382–412), for one
overnight `punch`.  It reads the `dayPunches`/`prevPunches` snapshots
captured before the loop (the source closes over those `const`s), while
its writes go through the current map — reproducing the aliasing of the
source exactly. -/
def overnightMoveStep (offset : Int) (shiftStartHour : Option Int) (dayIdx : Int)
    (dayPunches prevPunches : List BiometricPunch) (st' : OvernightState)
    (punch : BiometricPunch) : OvernightState :=
  let aw := arrivalWindowFor shiftStartHour
  let localPunch := punch.punchDatetime - offset * 60000
  let hasPrevCheckIn := decide (prevPunches.length > 0)
  let hasPrevCheckOut := decide (prevPunches.length > 1)
  if !hasPrevCheckIn then st'
  else
    let hasNormalArrival := dayPunches.any (fun candidate =>
      decide (candidate.id ≠ punch.id) &&
      isNormalArrivalPunch aw (candidate.punchDatetime - offset * 60000))
    if !hasPrevCheckOut && isEarlyShiftEdge shiftStartHour localPunch && !hasNormalArrival then st'
    else if !hasPrevCheckOut || hasNormalArrival then
      let timeLabel := padStart2Zero (toString (hourOfMs localPunch)) ++ ":" ++
        padStart2Zero (toString (minuteOfMs localPunch))
      { buckets := writeBuckets st'.buckets dayIdx dayPunches prevPunches punch,
        extraNotes := notesPush st'.extraNotes (dayIdx - 1)
          ("خروج بعد منتصف الليل " ++ timeLabel ++ " (" ++ formatDayIdx dayIdx ++ ")"),
        consumed := consumedInsert st'.consumed dayIdx
          (buildPunchConsumptionKey punch.employeeCode punch.punchDatetime) }
    else st'

/-- One day of the overnight-reclassification pass (lines 365–413). -/
def overnightStep (offset : Int) (shiftStartHour : Option Int)
    (st : OvernightState) (dayIdx : Int) : OvernightState :=
  let dayPunches := mapGetD st.buckets dayIdx []
  let prevPunches := mapGetD st.buckets (dayIdx - 1) []
  if dayPunches.length = 0 then st
  else
    let overnightPunches := dayPunches.filter (fun p =>
      isOvernightPunch (p.punchDatetime - offset * 60000))
    if overnightPunches.length = 0 then st
    else
      overnightPunches.foldl
        (overnightMoveStep offset shiftStartHour dayIdx dayPunches prevPunches) st

/-- The day indices `searchStart ≤ d ≤ searchEnd`, in order. -/
def dayRangeList (startIdx endIdx : Int) : List Int :=
  (List.range ((endIdx - startIdx + 1).toNat)).map (fun i => startIdx + i)

/-- The whole overnight-reclassification pass: a strict forward
chronological fold over the requested day range. -/
def overnightPass (offset : Int) (shiftStartHour : Option Int)
    (startIdx endIdx : Int) (st : OvernightState) : OvernightState :=
  (dayRangeList startIdx endIdx).foldl (overnightStep offset shiftStartHour) st

/-! ## Punch-conservation infrastructure for the overnight pass -/

/-- All punches stored across the per-day buckets, in bucket order. -/
def bagList (m : List (Int × List BiometricPunch)) : List BiometricPunch :=
  (m.map Prod.snd).flatten

/-- The same, as a multiset (bucket order forgotten). -/
def bagM (m : List (Int × List BiometricPunch)) : Multiset BiometricPunch :=
  (bagList m : List BiometricPunch)

/-- The total number of punches across the per-day buckets. -/
def totalPunchCount (m : List (Int × List BiometricPunch)) : Nat :=
  (bagList m).length

/-- `checkIn`: the first sorted day punch. -/
def dayCheckIn (dayPunches : List BiometricPunch) : Option Int :=
  dayPunches.head?.map (fun p => p.punchDatetime)

/-- `checkOut`: the last day punch, only when there are at least two. -/
def dayCheckOut (dayPunches : List BiometricPunch) : Option Int :=
  if dayPunches.length > 1 then dayPunches.getLast?.map (fun p => p.punchDatetime)
  else none

/-! ### The three per-day record builders (the bodies of the day loop's
branches, lines 484–527, 529–685, and 686–709).  Each recomputes the
`checkIn`/`checkOut`/local values from the day's sorted punch list with the
same formulas the day loop computes them with before branching. -/

/-- The Friday attendance-validation windows (lines 485–494): the punch's
local seconds-of-day lies in `11:00–16:00` or `12:00–17:00`, inclusive. -/
def fridayWindowPred (offset : Int) (punch : BiometricPunch) : Bool :=
  let seconds := localSecondsOfDay (punch.punchDatetime - offset * 60000)
  (decide (11 * 3600 ≤ seconds) && decide (seconds ≤ 16 * 3600)) ||
  (decide (12 * 3600 ≤ seconds) && decide (seconds ≤ 17 * 3600))

/-- The Friday / leave-day branch (lines 484–527; the dead
`overtimeStart`/`effectiveCheckOutDateTime` computations the source `void`s
are omitted). -/
def buildFridayLeaveRecord (offset : Int) (employee : Employee) (dayIdx : Int)
    (isFriday isLeaveDay : Bool) (leaveCategory : Option String)
    (leaveNotes extraNotes : List String) (hasOvernightStay : Bool)
    (dayPunches : List BiometricPunch) : AttendanceRecord :=
  let dateStr := formatDayIdx dayIdx
  let checkIn := dayCheckIn dayPunches
  let checkOut := dayCheckOut dayPunches
  let totalHours : ℚ :=
    match checkIn, checkOut with
    | some ci, some co => (((co - offset * 60000) - (ci - offset * 60000) : Int) : ℚ) / 3600000
    | _, _ => 0
  let attendedFriday := isFriday && dayPunches.any (fridayWindowPred offset)
  { id := 0, employeeCode := employee.code, date := dateStr,
    checkIn := checkIn, checkOut := checkOut,
    totalHours := some (if isFriday then 0 else totalHours),
    status := if isFriday then (if attendedFriday then "Friday Attended" else "Friday")
      else "Comp Day",
    overtimeHours := 0, penalties := [], isOvernight := false,
    notes := composeDailyNotes (if isLeaveDay then leaveCategory else none)
      extraNotes leaveNotes hasOvernightStay,
    missionStart := none, missionEnd := none, halfDayExcused := false }

/-- The `checkInSeconds`/`checkOutSeconds`/`computeAdjustmentEffects` call
of the workday branch (lines 530–548), as a function of the branch's
inputs. -/
def workdayEffects (offset : Int) (currentShiftStart currentShiftEnd : String)
    (hasOvernightStay : Bool) (dayAdjustments : List Adjustment)
    (dayPunches : List BiometricPunch) : AdjustmentEffects :=
  let checkInSeconds := ((dayCheckIn dayPunches).map (fun t => t - offset * 60000)).map
    localSecondsOfDay
  let checkOutSecondsRaw := ((dayCheckOut dayPunches).map (fun t => t - offset * 60000)).map
    localSecondsOfDay
  let checkOutSeconds := if hasOvernightStay then none else checkOutSecondsRaw
  computeAdjustmentEffects currentShiftStart currentShiftEnd
    (dayAdjustments.map (fun adj => ⟨adj.type, adj.fromTime, adj.toTime⟩))
    checkInSeconds checkOutSeconds

/-- `excusedDay` of the workday branch (lines 578–580): half-day excused
with no punches at all, or a mission window present. -/
def excusedDayOf (eff : AdjustmentEffects) (checkIn checkOut : Option Int) : Bool :=
  (eff.halfDayExcused && checkIn.isNone && checkOut.isNone) ||
  (eff.missionStartSeconds.isSome && eff.missionEndSeconds.isSome)

/-- `isExcusedForPenalties` of the workday branch (line 581). -/
def isExcusedForPenaltiesOf (eff : AdjustmentEffects) (checkIn checkOut : Option Int)
    (hasOvernightStay : Bool) : Bool :=
  excusedDayOf eff checkIn checkOut || eff.suppressPenalties || hasOvernightStay

/-- The workday branch (lines 529–685). -/
def buildWorkdayRecord (offset : Int) (employee : Employee) (dayIdx : Int)
    (currentShiftStart currentShiftEnd : String) (hasOvernightStay : Bool)
    (leaveNotes extraNotes : List String) (dayAdjustments : List Adjustment)
    (dayPunches : List BiometricPunch) : AttendanceRecord :=
  let dms := dayIdx * 86400000
  let dateStr := formatDayIdx dayIdx
  let checkIn := dayCheckIn dayPunches
  let checkOut := dayCheckOut dayPunches
  let checkInLocal := checkIn.map (fun t => t - offset * 60000)
  let checkOutLocal := checkOut.map (fun t => t - offset * 60000)
  let totalHours0 : Option ℚ :=
    match checkInLocal, checkOutLocal with
    | some ci, some co => some (((co - ci : Int) : ℚ) / 3600000)
    | _, _ => some 0
  let eff := workdayEffects offset currentShiftStart currentShiftEnd hasOvernightStay
    dayAdjustments dayPunches
  let effectiveShiftStartUTC : JSNum :=
    eff.effectiveShiftStartSeconds.map (toUtcFromSeconds dms offset)
  let effectiveShiftEndUTC : JSNum :=
    eff.effectiveShiftEndSeconds.map (toUtcFromSeconds dms offset)
  let missionStart := match eff.missionStartSeconds with
    | some j => some (secondsToHms j)
    | none => none
  let missionEnd := match eff.missionEndSeconds with
    | some j => some (secondsToHms j)
    | none => none
  let checkInDateTime := checkInLocal
  let checkOutDateTime := if hasOvernightStay then none else checkOutLocal
  let totalHours1 : Option ℚ :=
    match checkInDateTime, checkOutDateTime with
    | some ci, some co =>
      if co - ci > 0 then some (((co - ci : Int) : ℚ) / 3600000) else some 0
    | _, _ =>
      match eff.firstStampSeconds, eff.lastStampSeconds with
      | some fj, some lj =>
        (jsSub (lj.map (toUtcFromSeconds dms offset))
          (fj.map (toUtcFromSeconds dms offset))).map (fun dm => ((dm : Int) : ℚ) / 3600000)
      | _, _ => totalHours0
  let graceMs : Int := 900000
  let hasMission := eff.missionStartSeconds.isSome && eff.missionEndSeconds.isSome
  let halfDayExcused := eff.halfDayExcused
  let excusedDay := excusedDayOf eff checkIn checkOut
  let isExcusedForPenalties := isExcusedForPenaltiesOf eff checkIn checkOut hasOvernightStay
  let lateTriple : String × ℚ × JSNum :=
    if !isExcusedForPenalties && checkIn.isSome then
      let diffMs := jsSub checkIn effectiveShiftStartUTC
      let lateMinutes := jsMax0 (jsCeilDiv diffMs 60000)
      if jsGtB diffMs (some graceMs) then
        ("Late",
         (if jsGtB lateMinutes (some 60) then (1 : ℚ)
          else if jsGtB lateMinutes (some 30) then 1/2 else 1/4),
         lateMinutes)
      else ("Present", 0, lateMinutes)
    else ("Present", 0, some 0)
  let status0 :=
    if !isExcusedForPenalties && checkIn.isSome then lateTriple.1
    else if !isExcusedForPenalties && checkIn.isNone && checkOut.isNone then "Absent"
    else "Present"
  let absentPenalties : List Penalty :=
    if !(!isExcusedForPenalties && checkIn.isSome) &&
        (!isExcusedForPenalties && checkIn.isNone && checkOut.isNone) then
      [⟨"غياب", 1, none⟩]
    else []
  let latePenaltyValue : ℚ :=
    if !isExcusedForPenalties && checkIn.isSome then lateTriple.2.1 else 0
  let lateMinutes : JSNum :=
    if !isExcusedForPenalties && checkIn.isSome then lateTriple.2.2 else some 0
  let status1 := if hasOvernightStay then "Present" else status0
  let effectiveCheckOutForPenalties := if hasOvernightStay then none else checkOut
  let missingCheckout :=
    (checkIn.isSome && effectiveCheckOutForPenalties.isNone) && !isExcusedForPenalties
  let earlyLeaveThreshold := jsSub effectiveShiftEndUTC (some graceMs)
  let earlyLeaveTriggered :=
    effectiveCheckOutForPenalties.isSome && !missingCheckout && !isExcusedForPenalties &&
      jsLtB effectiveCheckOutForPenalties earlyLeaveThreshold
  let penalties := absentPenalties ++
    computePenaltyEntries isExcusedForPenalties latePenaltyValue lateMinutes
      missingCheckout earlyLeaveTriggered
  let status2 :=
    if excusedDay then
      if hasMission && eff.missionEndSeconds.isSome &&
          (match eff.missionEndSeconds with
           | some j => jsGeB j (timeStringToSeconds currentShiftEnd)
           | none => false) then "Present"
      else "Excused"
    else status1
  let autoNotes := computeAutomaticNotes none checkIn.isSome checkOut.isSome
    (excusedDay || hasOvernightStay) (excusedDay || hasOvernightStay)
    (effectiveCheckOutForPenalties.isSome &&
      jsLtB effectiveCheckOutForPenalties earlyLeaveThreshold)
  let nextDayShiftStartUTC : JSNum :=
    eff.effectiveShiftStartSeconds.map (toUtcFromSeconds (dms + 86400000) offset)
  let effectiveCheckOutDateTime : Option JSNum :=
    if hasOvernightStay then some nextDayShiftStartUTC else checkOutDateTime.map some
  let totalHours2 : Option ℚ :=
    match checkInDateTime, effectiveCheckOutDateTime with
    | some ci, some jco =>
      (match jsSub jco (some ci) with
       | some dm => if dm > 0 then some ((dm : ℚ) / 3600000) else some 0
       | none => some 0)
    | _, _ => totalHours1
  let overtimeStart := jsAdd effectiveShiftEndUTC (some 3600000)
  let overtimeCutoff := nextDayShiftStartUTC
  let overtimeHours : Int :=
    match effectiveCheckOutDateTime with
    | some jco =>
      let cappedCheckout := if jsGtB jco overtimeCutoff then overtimeCutoff else jco
      (match cappedCheckout, overtimeStart with
       | some c, some s => if s < c then (c - s).fdiv 3600000 else 0
       | _, _ => 0)
    | none => 0
  let recordCheckOut := if hasOvernightStay then none else checkOut
  { id := 0, employeeCode := employee.code, date := dateStr,
    checkIn := checkIn, checkOut := recordCheckOut,
    totalHours := totalHours2, status := status2, overtimeHours := overtimeHours,
    penalties := penalties, isOvernight := false,
    notes := composeDailyNotes (if autoNotes = "" then none else some autoNotes)
      extraNotes leaveNotes hasOvernightStay,
    missionStart := missionStart, missionEnd := missionEnd,
    halfDayExcused := halfDayExcused }

/-- The no-punch no-adjustment fallback branch (lines 686–709). -/
def buildAbsentRecord (employee : Employee) (dayIdx : Int)
    (leaveNotes extraNotes : List String) (hasOvernightStay : Bool) : AttendanceRecord :=
  { id := 0, employeeCode := employee.code, date := formatDayIdx dayIdx,
    checkIn := none, checkOut := none, totalHours := some 0, status := "Absent",
    penalties := [⟨"غياب", 1, none⟩], overtimeHours := 0, isOvernight := false,
    notes := composeDailyNotes none extraNotes leaveNotes hasOvernightStay,
    missionStart := none, missionEnd := none, halfDayExcused := false }

/-- One iteration of the day loop (lines 415–710), producing the day's
record (with the running `recordId` filled in by the caller). -/
def buildDayRecord (offset : Int) (rules : List SpecialRule) (leaves : List Leave)
    (adjMap : List (String × List Adjustment)) (employee : Employee)
    (normCode : String) (st : OvernightState) (dayIdx : Int) : AttendanceRecord :=
  let dateStr := formatDayIdx dayIdx
  let activeRules := activeRulesFor rules employee normCode dayIdx
  let dayOfWeek := (dayIdx + 4).emod 7
  let isSaturday := decide (dayOfWeek = 6)
  let sw := shiftWindowOf activeRules isSaturday
  let isFriday := decide (dayOfWeek = 5)
  let leaveRule := activeRules.find? (fun r => decide (r.ruleType = "attendance_exempt"))
  let leaveTypeRaw := match leaveRule with
    | some r => toLowerStr r.params.leaveType
    | none => ""
  let leaveCategoryFromRule : Option String := match leaveRule with
    | some _ => some (if leaveTypeRaw = "official" then "Official Leave" else "HR Leave")
    | none => none
  let matchedLeaves := leaves.filter (fun lv => appliesLeave employee lv dateStr)
  let hasOfficialLeave := matchedLeaves.any (fun lv => decide (lv.type = "official"))
  let leaveCategoryFromLeave : Option String :=
    if matchedLeaves.length > 0 then
      some (if hasOfficialLeave then "Official Leave" else "HR Leave")
    else none
  let leaveNotes := (matchedLeaves.filterMap Leave.note).filter (fun n => n ≠ "")
  let leaveCategory := match leaveCategoryFromRule with
    | some c => some c
    | none => leaveCategoryFromLeave
  let isLeaveDay := leaveRule.isSome || decide (matchedLeaves.length > 0)
  let hasOvernightStay := activeRules.any (fun r => decide (r.ruleType = "overnight_stay"))
  let dayAdjustments := mapGetD adjMap (employee.code ++ "__" ++ dateStr) []
  let consumedPunches := mapFind? st.consumed dayIdx
  let dayPunches := sortByLe punchLeB
    (filterConsumedPunches (mapGetD st.buckets dayIdx []) consumedPunches)
  let extraNotes := mapGetD st.extraNotes dayIdx []
  if isFriday || isLeaveDay then
    buildFridayLeaveRecord offset employee dayIdx isFriday isLeaveDay leaveCategory
      leaveNotes extraNotes hasOvernightStay dayPunches
  else if decide (dayPunches.length > 0) || decide (dayAdjustments.length > 0) then
    buildWorkdayRecord offset employee dayIdx sw.1 sw.2 hasOvernightStay
      leaveNotes extraNotes dayAdjustments dayPunches
  else
    buildAbsentRecord employee dayIdx leaveNotes extraNotes hasOvernightStay

/-- The per-employee body of `processAttendanceRecords` (lines 282–711):
bucket the employee's punches, run the overnight pass over the requested
range, then build one record per day. -/
def processEmployee (offset startIdx endIdx : Int) (rules : List SpecialRule)
    (leaves : List Leave) (adjMap : List (String × List Adjustment))
    (punches : List BiometricPunch) (employee : Employee) : List AttendanceRecord :=
  let normCode := jsTrim employee.code
  let buckets0 := bucketPunchesFor offset employee punches
  let shiftStartHour := shiftStartHourOf employee
  let st := overnightPass offset shiftStartHour startIdx endIdx ⟨buckets0, [], []⟩
  (dayRangeList startIdx endIdx).map
    (buildDayRecord offset rules leaves adjMap employee normCode st)

/-- The parameter record of `processAttendanceRecords`;
`timezoneOffsetMinutes` is optional and defaults to `-120` (the
`Number.isFinite` guard of the source reduces to a presence check for an
integer-typed parameter). -/
structure ProcessAttendanceParams where
  employees : List Employee
  punches : List BiometricPunch
  rules : List SpecialRule
  leaves : List Leave
  adjustments : List Adjustment
  startDate : String
  endDate : String
  timezoneOffsetMinutes : Option Int
deriving Repr, DecidableEq

/-- `processAttendanceRecords` of `src/unnamed/part_003` (lines 233–714).
The running `recordId` that starts at 1 and increments at every push is
realized by numbering the concatenated per-employee record lists. -/
def processAttendanceRecords (p : ProcessAttendanceParams) : List AttendanceRecord :=
  let offsetMinutes := p.timezoneOffsetMinutes.getD (-120)
  let startIdx := parseDateToDayIdx p.startDate
  let endIdx := parseDateToDayIdx p.endDate
  let adjMap := p.adjustments.foldl
    (fun m adj =>
      let key := adj.employeeCode ++ "__" ++ adj.date
      mapSet m key (mapGetD m key [] ++ [adj]))
    []
  let records := (p.employees.map
    (processEmployee offsetMinutes startIdx endIdx p.rules p.leaves adjMap p.punches)).flatten
  records.enum.map (fun e => { e.2 with id := (e.1 : Int) + 1 })

/-! ## Claim theorems -/

/-- C1: `processAttendanceRecords` is deterministic: it is a pure function
of its parameter record, so two invocations on the same inputs produce
identical record lists, in both order and field values. -/
theorem processAttendance_deterministic (p : ProcessAttendanceParams) :
    processAttendanceRecords p = processAttendanceRecords p := rfl

/-- C9: parsing the scope `"emp:031, 31 ,515"`: tokens are split on commas,
trimmed, zero-stripped, and de-duplicated, so the matched set is exactly
`{"31", "515"}` with `"31"` occurring once; the shared parser's matched
code set (its value list up to duplicates) is the same set. -/
theorem empScope_dedup_zero_strip :
    RuleScopeServer.parseEmpScope "emp:031, 31 ,515" = ["31", "515"] ∧
    (RuleScopeServer.parseEmpScope "emp:031, 31 ,515").count "31" = 1 ∧
    (RuleScopeShared.parseRuleScope "emp:031, 31 ,515").values.dedup = ["31", "515"] := by
  decide

/-- C8 (counterexample): the time string `"ab"` does not denote a valid
time, yet `normalizeTimeToHms` yields `"NaN:00:00"`, not `"00:00:00"`, and
`timeStringToSeconds` yields `NaN`, not `0`. -/
theorem normalizeTime_nonNumeric_not_zeroed :
    normalizeTimeToHms "ab" = "NaN:00:00" ∧ normalizeTimeToHms "ab" ≠ "00:00:00" ∧
    timeStringToSeconds "ab" = none := by decide

/-- C8 (amended): unparseable time strings never fail, and a blank
(empty or all-whitespace) string normalizes to `"00:00:00"` with
`timeStringToSeconds` equal to `0`; but a string with a non-numeric field
renders that field as `"NaN"` instead of zeroing it. -/
theorem blank_time_normalizes_to_zero (s : String) (h : jsTrim s = "") :
    normalizeTimeToHms s = "00:00:00" ∧ timeStringToSeconds s = some 0 := by
  constructor
  · simp only [normalizeTimeToHms, h]
    decide
  · simp only [timeStringToSeconds, normalizeTimeToHms, h]
    decide

/-- Witness for C8's amended theorem at the whitespace string `" "`. -/
theorem blank_time_normalizes_to_zero_witness :
    jsTrim " " = "" ∧ (normalizeTimeToHms " " = "00:00:00" ∧ timeStringToSeconds " " = some 0) :=
  ⟨by decide, blank_time_normalizes_to_zero " " (by decide)⟩

/-- C7 (counterexample): the unparseable scope `"garbage"` (no recognized
prefix) is parsed as `all` by `parseRuleScope`, but employee-level scope
matching returns `false` for it, not `true`. -/
theorem unparseable_scope_fails_closed :
    matchesRuleScope "garbage" ⟨"31", none, none, none, none, "09:00"⟩ = false ∧
    RuleScopeShared.parseRuleScope "garbage" = ⟨"all", []⟩ := by decide

/-- C7 (amended): the empty scope and the bare `"all"` match every
employee; an unparseable non-empty scope other than `"all"` is parsed by
`parseRuleScope` as `all` but is matched fail-closed: `parseEmployeeScope`
returns `false` for it. -/
theorem scope_default_behavior (scope : String) (employee : Employee)
    (normCode : String) :
    (scope = "" ∨ scope = "all" → parseEmployeeScope scope employee normCode = true) ∧
    (scope ≠ "" → scope ≠ "all" →
      strStartsWith scope "dept:" = false → strStartsWith scope "sector:" = false →
      strStartsWith scope "emp:" = false →
      parseEmployeeScope scope employee normCode = false ∧
      RuleScopeShared.parseRuleScope scope = ⟨"all", []⟩) := by
  constructor
  · intro h
    simp [parseEmployeeScope, h]
  · intro h1 h2 h3 h4 h5
    constructor
    · simp [parseEmployeeScope, h1, h2, h3, h4, h5]
    · simp [RuleScopeShared.parseRuleScope, h1, h2, h3, h4, h5]

/-- Witness for C7's amended theorem: `"all"` matches, `"garbage"` does
not. -/
theorem scope_default_behavior_witness :
    parseEmployeeScope "all" ⟨"31", none, none, none, none, "09:00"⟩ "31" = true ∧
    (parseEmployeeScope "garbage" ⟨"31", none, none, none, none, "09:00"⟩ "31" = false ∧
      RuleScopeShared.parseRuleScope "garbage" = ⟨"all", []⟩) :=
  ⟨(scope_default_behavior "all" ⟨"31", none, none, none, none, "09:00"⟩ "31").1 (Or.inr rfl),
   (scope_default_behavior "garbage" ⟨"31", none, none, none, none, "09:00"⟩ "31").2
     (by decide) (by decide) (by decide) (by decide) (by decide)⟩

/-- Adding the JS number `0` is the identity (also on `NaN`). -/
theorem jsAdd_zero (a : JSNum) : jsAdd a (some 0) = a := by
  cases a <;> simp [jsAdd]

/-- Subtracting the JS number `0` is the identity (also on `NaN`). -/
theorem jsSub_zero (a : JSNum) : jsSub a (some 0) = a := by
  cases a <;> simp [jsSub]

/-- A morning or evening permission whose `toTime` is at or before its
`fromTime` leaves the adjustment accumulator unchanged. -/
theorem adjStep_noop_of_clamped (sss ses : JSNum) (st : AdjState)
    (a : AdjustmentInput)
    (hty : a.type = "اذن صباحي" ∨ a.type = "اذن مسائي")
    (hfv : ∀ fv tv, timeStringToSeconds a.fromTime = some fv →
      timeStringToSeconds a.toTime = some tv → tv ≤ fv)
    (hsome : (timeStringToSeconds a.fromTime).isSome ∧
      (timeStringToSeconds a.toTime).isSome) :
    adjStep sss ses st a = st := by
  obtain ⟨fv, hf⟩ := Option.isSome_iff_exists.mp hsome.1
  obtain ⟨tv, ht⟩ := Option.isSome_iff_exists.mp hsome.2
  have hle := hfv fv tv hf ht
  have hmax : jsMax0 (jsSub (timeStringToSeconds a.toTime)
      (timeStringToSeconds a.fromTime)) = some 0 := by
    rw [hf, ht]
    simp [jsSub, jsMax0]
    omega
  rcases hty with h | h
  · simp [adjStep, h, hmax, jsAdd_zero]
  · simp [adjStep, h, hmax, jsSub_zero]

/-- C10: permission adjustments are one-sided.  Removing a morning or
evening permission whose `toTime` is at or before its `fromTime` from the
adjustment list does not change `computeAdjustmentEffects` at all: the
delta is clamped to `0`, so a morning permission never moves the effective
shift start earlier and an evening permission never moves the effective
shift end later. -/
theorem permission_clamped_removal (shiftStart shiftEnd : String)
    (pre post : List AdjustmentInput) (a : AdjustmentInput)
    (cin cout : Option Int)
    (hty : a.type = "اذن صباحي" ∨ a.type = "اذن مسائي")
    (hfrom : ∃ fv tv, timeStringToSeconds a.fromTime = some fv ∧
      timeStringToSeconds a.toTime = some tv ∧ tv ≤ fv) :
    computeAdjustmentEffects shiftStart shiftEnd (pre ++ a :: post) cin cout =
    computeAdjustmentEffects shiftStart shiftEnd (pre ++ post) cin cout := by
  obtain ⟨fv, tv, hf, ht, hle⟩ := hfrom
  have hnoop : ∀ st, adjStep (timeStringToSeconds shiftStart)
      (timeStringToSeconds shiftEnd) st a = st := by
    intro st
    exact adjStep_noop_of_clamped _ _ st a hty
      (fun fv' tv' hf' ht' => by
        rw [hf] at hf'
        rw [ht] at ht'
        cases hf'
        cases ht'
        exact hle)
      ⟨by simp [hf], by simp [ht]⟩
  simp only [computeAdjustmentEffects, List.foldl_append, List.foldl_cons, hnoop]

/-- Witness for C10 at a concrete clamped morning permission. -/
theorem permission_clamped_removal_witness :
    ((⟨"اذن صباحي", "10:00", "09:30"⟩ : AdjustmentInput).type = "اذن صباحي" ∨
      (⟨"اذن صباحي", "10:00", "09:30"⟩ : AdjustmentInput).type = "اذن مسائي") ∧
    computeAdjustmentEffects "09:00" "17:00"
      ([] ++ (⟨"اذن صباحي", "10:00", "09:30"⟩ : AdjustmentInput) :: []) none none =
    computeAdjustmentEffects "09:00" "17:00" ([] ++ []) none none :=
  ⟨Or.inl rfl,
   permission_clamped_removal "09:00" "17:00" [] [] ⟨"اذن صباحي", "10:00", "09:30"⟩
     none none (Or.inl rfl) ⟨36000, 34200, by decide, by decide, by decide⟩⟩

/-- C6 (divergence evidence): an employee on the default `09:00–17:00`
shift punches exactly at local `09:00` and `17:00` (offset `-120`, day
2024-06-03).  The engine's inline overtime block compares the local-frame
checkout milliseconds against UTC-frame thresholds and reports **1** hour
of overtime for an on-time checkout, while the same file's
`computeOvertimeHours` — whole hours of the checkout beyond
`shiftEnd + 1h`, the documented semantics, also used by the earlier routes
revision of the engine — reports `0`. -/
theorem overtime_bug_on_time_checkout :
    ((processAttendanceRecords
      ⟨[⟨"101", none, none, none, none, "09:00"⟩],
       [⟨1, "101", 1717398000000⟩, ⟨2, "101", 1717426800000⟩],
       [], [], [], "2024-06-03", "2024-06-03", none⟩).map
      (fun r => (r.status, r.overtimeHours, r.penalties))) = [("Present", 1, [])] ∧
    computeOvertimeHours "17:00" (some 61200) = some 0 := by decide

/-- Prepending a string leaves it as a prefix. -/
theorem strStartsWith_append (a b : String) : strStartsWith (a ++ b) a = true := by
  simp only [strStartsWith, List.isPrefixOf_iff_prefix]
  have h : (a ++ b).toList = a.toList ++ b.toList := String.data_append a b
  rw [h]
  exact List.prefix_append _ _

/-- Every string is a prefix of itself. -/
theorem strStartsWith_self (a : String) : strStartsWith a a = true := by
  simp only [strStartsWith, List.isPrefixOf_iff_prefix]
  exact List.prefix_refl _

/-- The insertion-ordered-set fold keeps the head of a non-empty
accumulator. -/
theorem foldl_insertSet_head (l : List String) :
    ∀ (x : String) (t0 : List String),
      ∃ t, l.foldl (fun acc n => if acc.contains n then acc else acc ++ [n]) (x :: t0) =
        x :: t := by
  induction l with
  | nil => intro x t0; exact ⟨t0, rfl⟩
  | cons a l ih =>
    intro x t0
    simp only [List.foldl_cons]
    by_cases h : (x :: t0).contains a
    · simp only [h, if_pos]
      exact ih x t0
    · simp only [h, if_neg]
      simpa using ih x (t0 ++ [a])

/-- `joinSep` starts with the head of its list. -/
theorem joinSep_startsWith (sep x : String) (xs : List String) :
    strStartsWith (joinSep sep (x :: xs)) x = true := by
  cases xs with
  | nil => simpa [joinSep] using strStartsWith_self x
  | cons y ys =>
    show strStartsWith (x ++ sep ++ joinSep sep (y :: ys)) x = true
    rw [String.append_assoc]
    exact strStartsWith_append x (sep ++ joinSep sep (y :: ys))

/-- `appendNotes` over a base note that the comma-splitting pass returns
unchanged keeps that note as a prefix of the result. -/
theorem appendNotes_startsWith (cat : String) (additions : List String)
    (hsplit : ((splitOnPred (fun c => c = '،' ∨ c = ',') cat).map jsTrim).filter
      (fun n => n ≠ "") = [cat]) :
    strStartsWith (appendNotes (some cat) additions) cat = true := by
  simp only [appendNotes, Option.getD_some, hsplit, List.cons_append, List.nil_append,
    List.foldl_cons]
  have hfirst : (if ([] : List String).contains cat = true then ([] : List String)
      else [cat]) = [cat] := by simp
  rw [hfirst]
  obtain ⟨t, ht⟩ := foldl_insertSet_head additions cat []
  rw [ht]
  exact joinSep_startsWith _ _ _

/-- C5 (counterexample): (a) on a Friday that is also a leave day
(2024-06-07 with an active official leave) the record's status is
`"Friday"`, not `"Comp Day"`; (b) on a non-Friday leave day with an active
overnight-stay rule the notes are `"مبيت"`, so the leave category is not a
note prefix. -/
theorem friday_leave_claim_counterexample :
    ((processAttendanceRecords
      ⟨[⟨"101", none, none, none, none, "09:00"⟩], [], [],
       [⟨"official", "all", none, "2024-06-07", "2024-06-07", none⟩], [],
       "2024-06-07", "2024-06-07", none⟩).map (fun r => r.status)) = ["Friday"] ∧
    "Friday" ≠ "Comp Day" ∧
    ((processAttendanceRecords
      ⟨[⟨"101", none, none, none, none, "09:00"⟩], [],
       [⟨1, "all", "overnight_stay", "2024-06-03", "2024-06-03", 1, ⟨"", "", ""⟩⟩],
       [⟨"annual", "all", none, "2024-06-03", "2024-06-03", none⟩], [],
       "2024-06-03", "2024-06-03", none⟩).map
      (fun r => (r.status, r.notes))) = [("Comp Day", "مبيت")] ∧
    strStartsWith "مبيت" "HR Leave" = false := by decide

/-- C5 (amended): in the Friday/leave branch, a Friday's status is
`"Friday Attended"` exactly when some punch falls in the `11:00–16:00` or
`12:00–17:00` validation window and `"Friday"` otherwise, and a Friday's
`totalHours` is `0` (attended or not); a non-Friday leave day's status is
`"Comp Day"`, and — unless an overnight-stay rule is active, which
replaces the notes by `"مبيت"` — the leave category (`"Official Leave"` or
`"HR Leave"`) is a prefix of the notes; the branch's penalty list is
always empty. -/
theorem friday_leave_branch_spec (offset : Int) (employee : Employee) (dayIdx : Int)
    (isFriday isLeaveDay : Bool) (leaveCategory : Option String)
    (leaveNotes extraNotes : List String) (hasOvernightStay : Bool)
    (dayPunches : List BiometricPunch) :
    (isFriday = true →
      (buildFridayLeaveRecord offset employee dayIdx isFriday isLeaveDay leaveCategory
        leaveNotes extraNotes hasOvernightStay dayPunches).status =
        (if dayPunches.any (fridayWindowPred offset) then "Friday Attended" else "Friday") ∧
      (buildFridayLeaveRecord offset employee dayIdx isFriday isLeaveDay leaveCategory
        leaveNotes extraNotes hasOvernightStay dayPunches).totalHours = some 0) ∧
    (isFriday = false → isLeaveDay = true →
      (buildFridayLeaveRecord offset employee dayIdx isFriday isLeaveDay leaveCategory
        leaveNotes extraNotes hasOvernightStay dayPunches).status = "Comp Day" ∧
      (hasOvernightStay = false →
        ∀ cat, leaveCategory = some cat →
          cat = "Official Leave" ∨ cat = "HR Leave" →
          strStartsWith (buildFridayLeaveRecord offset employee dayIdx isFriday isLeaveDay
            leaveCategory leaveNotes extraNotes hasOvernightStay dayPunches).notes cat =
            true)) ∧
    (buildFridayLeaveRecord offset employee dayIdx isFriday isLeaveDay leaveCategory
      leaveNotes extraNotes hasOvernightStay dayPunches).penalties = [] := by
  refine ⟨?_, ?_, by simp [buildFridayLeaveRecord]⟩
  · intro hf
    constructor
    · simp [buildFridayLeaveRecord, hf]
    · simp [buildFridayLeaveRecord, hf]
  · intro hf hl
    constructor
    · simp [buildFridayLeaveRecord, hf, hl]
    · intro hov cat hcat hcases
      have hnotes : (buildFridayLeaveRecord offset employee dayIdx isFriday isLeaveDay
          leaveCategory leaveNotes extraNotes hasOvernightStay dayPunches).notes =
          appendNotes (some cat) (extraNotes ++ leaveNotes) := by
        simp [buildFridayLeaveRecord, hl, hcat, hov, composeDailyNotes]
      rw [hnotes]
      rcases hcases with h | h <;>
        exact appendNotes_startsWith cat _ (by rw [h]; decide)

/-- Witness for C5's amended theorem at a concrete attended Friday and a
concrete leave day. -/
theorem friday_leave_branch_spec_witness :
    ((buildFridayLeaveRecord (-120) ⟨"101", none, none, none, none, "09:00"⟩ 19881
        true false none [] [] false [⟨1, "101", 1717754400000⟩]).status =
      (if [(⟨1, "101", 1717754400000⟩ : BiometricPunch)].any (fridayWindowPred (-120))
        then "Friday Attended" else "Friday") ∧
      (buildFridayLeaveRecord (-120) ⟨"101", none, none, none, none, "09:00"⟩ 19881
        true false none [] [] false [⟨1, "101", 1717754400000⟩]).totalHours = some 0) ∧
    ((buildFridayLeaveRecord (-120) ⟨"101", none, none, none, none, "09:00"⟩ 19877
        false true (some "HR Leave") [] [] false []).status = "Comp Day" ∧
      strStartsWith (buildFridayLeaveRecord (-120) ⟨"101", none, none, none, none, "09:00"⟩
        19877 false true (some "HR Leave") [] [] false []).notes "HR Leave" = true) :=
  ⟨(friday_leave_branch_spec (-120) ⟨"101", none, none, none, none, "09:00"⟩ 19881
      true false none [] [] false [⟨1, "101", 1717754400000⟩]).1 rfl,
   ((friday_leave_branch_spec (-120) ⟨"101", none, none, none, none, "09:00"⟩ 19877
      false true (some "HR Leave") [] [] false []).2.1 rfl rfl).1,
   ((friday_leave_branch_spec (-120) ⟨"101", none, none, none, none, "09:00"⟩ 19877
      false true (some "HR Leave") [] [] false []).2.1 rfl rfl).2 rfl "HR Leave" rfl
     (Or.inr rfl)⟩

/-- C4: lateness classification on a workday.  For a day that is not
excused for penalties and has a check-in, with
`lateMs = checkIn − effectiveShiftStart` and a 15-minute grace: if
`lateMs > grace` the status is `"Late"` and exactly one `"تأخير"` penalty
is emitted, valued `1` when the late minutes exceed `60`, `1/2` when they
exceed `30`, and `1/4` otherwise; if `lateMs ≤ grace` the status is
`"Present"` and no `"تأخير"` penalty is emitted. -/
theorem lateness_classification (offset : Int) (employee : Employee) (dayIdx : Int)
    (currentShiftStart currentShiftEnd : String) (hasOvernightStay : Bool)
    (leaveNotes extraNotes : List String) (dayAdjustments : List Adjustment)
    (dayPunches : List BiometricPunch) (ci ess lateMs lm : Int) (r : AttendanceRecord)
    (hr : r = buildWorkdayRecord offset employee dayIdx currentShiftStart currentShiftEnd
      hasOvernightStay leaveNotes extraNotes dayAdjustments dayPunches)
    (hexc : isExcusedForPenaltiesOf
      (workdayEffects offset currentShiftStart currentShiftEnd hasOvernightStay
        dayAdjustments dayPunches)
      (dayCheckIn dayPunches) (dayCheckOut dayPunches) hasOvernightStay = false)
    (hci : dayCheckIn dayPunches = some ci)
    (hess : (workdayEffects offset currentShiftStart currentShiftEnd hasOvernightStay
      dayAdjustments dayPunches).effectiveShiftStartSeconds = some ess)
    (hlate : lateMs = ci - toUtcFromSeconds (dayIdx * 86400000) offset ess)
    (hlm : lm = max 0 (-((-lateMs).fdiv 60000))) :
    (900000 < lateMs →
      r.status = "Late" ∧
      r.penalties.filter (fun p => p.type == "تأخير") =
        [⟨"تأخير", if 60 < lm then 1 else if 30 < lm then 1/2 else 1/4, some (some lm)⟩]) ∧
    (lateMs ≤ 900000 →
      r.status = "Present" ∧
      r.penalties.filter (fun p => p.type == "تأخير") = []) := by
  have hov : hasOvernightStay = false := by
    cases h : hasOvernightStay
    · rfl
    · rw [h] at hexc
      simp [isExcusedForPenaltiesOf] at hexc
  subst hov
  rw [hci] at hexc
  have hexd : excusedDayOf
      (workdayEffects offset currentShiftStart currentShiftEnd false dayAdjustments dayPunches)
      (some ci) (dayCheckOut dayPunches) = false := by
    simp only [isExcusedForPenaltiesOf, Bool.or_eq_false_iff] at hexc
    exact hexc.1.1
  subst hr hlate hlm
  simp only [buildWorkdayRecord, hci, hess, hexc, hexd, Option.map_some', Option.isSome_some,
    Bool.not_false, Bool.true_and, Bool.and_true, Bool.false_eq_true, if_false,
    jsSub, jsGtB, jsCeilDiv, jsMax0]
  simp only [if_true, Option.isNone_some, Bool.not_true, Bool.false_and, Bool.and_false,
    Bool.false_eq_true, if_false, List.nil_append, decide_eq_true_eq]
  have hfilter2 : ∀ (mc el : Bool),
      List.filter (fun p => p.type == "تأخير")
        (if mc = true then [(⟨"سهو بصمة", 1/2, none⟩ : Penalty)]
         else if el = true then [(⟨"انصراف مبكر", 1/2, none⟩ : Penalty)] else []) = [] := by
    intro mc el
    cases mc <;> cases el <;> decide
  constructor
  · intro hlt
    rw [if_pos hlt]
    refine ⟨rfl, ?_⟩
    simp only [computePenaltyEntries, Bool.false_eq_true, if_false, List.filter_append, hfilter2,
      List.append_nil]
    rw [if_pos (by split_ifs <;> norm_num)]
    simp
  · intro hle
    rw [if_neg (by omega)]
    refine ⟨rfl, ?_⟩
    simp only [computePenaltyEntries, Bool.false_eq_true, if_false, List.filter_append, hfilter2,
      List.append_nil]
    rw [if_neg (by norm_num)]
    simp

/-- Witness for C4 at a single punch at local `09:40` against a
`09:00–17:00` shift (40 late minutes, tier `1/2`). -/
theorem lateness_classification_witness :
    (buildWorkdayRecord (-120) ⟨"101", none, none, none, none, "09:00"⟩ 19877 "09:00" "17:00"
      false [] [] [] [⟨1, "101", 1717400400000⟩]).status = "Late" ∧
    (buildWorkdayRecord (-120) ⟨"101", none, none, none, none, "09:00"⟩ 19877 "09:00" "17:00"
      false [] [] [] [⟨1, "101", 1717400400000⟩]).penalties.filter
        (fun p => p.type == "تأخير") =
      [⟨"تأخير", if (60 : Int) < 40 then 1 else if (30 : Int) < 40 then 1/2 else 1/4,
        some (some 40)⟩] :=
  (lateness_classification (-120) ⟨"101", none, none, none, none, "09:00"⟩ 19877 "09:00"
    "17:00" false [] [] [] [⟨1, "101", 1717400400000⟩] 1717400400000 32400 2400000 40
    (buildWorkdayRecord (-120) ⟨"101", none, none, none, none, "09:00"⟩ 19877 "09:00" "17:00"
      false [] [] [] [⟨1, "101", 1717400400000⟩])
    rfl (by decide) (by decide) (by decide) (by decide) (by decide)).1 (by decide)

/-- Membership in `insertLe`. -/
theorem mem_insertLe (le : α → α → Bool) (x a : α) (l : List α) :
    a ∈ insertLe le x l ↔ a ∈ x :: l := by
  induction l with
  | nil => simp [insertLe]
  | cons y ys ih =>
    simp only [insertLe]
    by_cases h : le y x = true
    · rw [if_pos h]
      simp only [List.mem_cons] at ih ⊢
      rw [ih]
      tauto
    · rw [if_neg h]

/-- Membership through the insertion-sort fold. -/
theorem mem_sortByLe_fold (le : α → α → Bool) (l : List α) :
    ∀ (acc : List α) (a : α),
      (a ∈ l.foldl (fun acc x => insertLe le x acc) acc ↔ a ∈ acc ∨ a ∈ l) := by
  induction l with
  | nil => simp
  | cons x xs ih =>
    intro acc a
    simp only [List.foldl_cons]
    rw [ih, mem_insertLe]
    simp only [List.mem_cons]
    tauto

/-- `sortByLe` has the same members as its input. -/
theorem mem_sortByLe (le : α → α → Bool) (l : List α) (a : α) :
    a ∈ sortByLe le l ↔ a ∈ l := by
  unfold sortByLe
  rw [mem_sortByLe_fold]
  simp

/-- `insertLe` preserves sortedness for a total transitive boolean
preorder. -/
theorem pairwise_insertLe (le : α → α → Bool)
    (htrans : ∀ a b c, le a b = true → le b c = true → le a c = true)
    (htot : ∀ a b, le a b = true ∨ le b a = true)
    (x : α) (l : List α) (h : l.Pairwise (fun a b => le a b = true)) :
    (insertLe le x l).Pairwise (fun a b => le a b = true) := by
  induction l with
  | nil => simp [insertLe]
  | cons y ys ih =>
    rcases List.pairwise_cons.mp h with ⟨hy, hys⟩
    simp only [insertLe]
    split_ifs with hle
    · refine List.pairwise_cons.mpr ⟨?_, ih hys⟩
      intro b hb
      rw [mem_insertLe] at hb
      rcases List.mem_cons.mp hb with hb | hb
      · rw [hb]
        exact hle
      · exact hy b hb
    · refine List.pairwise_cons.mpr ⟨?_, h⟩
      intro b hb
      have hxy : le x y = true := by
        rcases htot x y with h' | h'
        · exact h'
        · exact absurd h' (by simpa using hle)
      rcases List.mem_cons.mp hb with hb | hb
      · rw [hb]
        exact hxy
      · exact htrans x y b hxy (hy b hb)

/-- The insertion-sort fold preserves sortedness of the accumulator. -/
theorem pairwise_sortByLe_fold (le : α → α → Bool)
    (htrans : ∀ a b c, le a b = true → le b c = true → le a c = true)
    (htot : ∀ a b, le a b = true ∨ le b a = true) (l : List α) :
    ∀ acc : List α, acc.Pairwise (fun a b => le a b = true) →
      (l.foldl (fun acc x => insertLe le x acc) acc).Pairwise (fun a b => le a b = true) := by
  induction l with
  | nil => intro acc h; simpa using h
  | cons x xs ih =>
    intro acc h
    simp only [List.foldl_cons]
    exact ih _ (pairwise_insertLe le htrans htot x acc h)

/-- `sortByLe` sorts, for a total transitive boolean preorder. -/
theorem pairwise_sortByLe (le : α → α → Bool)
    (htrans : ∀ a b c, le a b = true → le b c = true → le a c = true)
    (htot : ∀ a b, le a b = true ∨ le b a = true) (l : List α) :
    (sortByLe le l).Pairwise (fun a b => le a b = true) :=
  pairwise_sortByLe_fold le htrans htot l [] List.Pairwise.nil

/-- In a sorted list, `find?` returns an element that dominates every
element satisfying the predicate. -/
theorem find?_max_of_pairwise (le : α → α → Bool) (p : α → Bool)
    (hrefl : ∀ a, le a a = true) (l : List α) (r : α)
    (hp : l.Pairwise (fun a b => le a b = true))
    (hf : l.find? p = some r) :
    ∀ x ∈ l, p x = true → le r x = true := by
  induction l with
  | nil => simp at hf
  | cons a t ih =>
    rcases List.pairwise_cons.mp hp with ⟨ha, ht⟩
    intro x hx hpx
    by_cases hpa : p a = true
    · have hra : r = a := by
        rw [List.find?_cons_of_pos _ hpa] at hf
        exact (Option.some_injective _ hf).symm
      rcases List.mem_cons.mp hx with h | h
      · rw [hra, h]
        exact hrefl a
      · rw [hra]
        exact ha x h
    · rw [List.find?_cons_of_neg _ (by simpa using hpa)] at hf
      rcases List.mem_cons.mp hx with h | h
      · subst h
        exact absurd hpx hpa
      · exact ih ht hf x h hpx

/-- `rulePriorityLe` is transitive. -/
theorem rulePriorityLe_trans (a b c : SpecialRule)
    (h1 : rulePriorityLe a b = true) (h2 : rulePriorityLe b c = true) :
    rulePriorityLe a c = true := by
  simp only [rulePriorityLe, decide_eq_true_eq] at h1 h2 ⊢
  omega

/-- `rulePriorityLe` is total. -/
theorem rulePriorityLe_total (a b : SpecialRule) :
    rulePriorityLe a b = true ∨ rulePriorityLe b a = true := by
  simp only [rulePriorityLe, decide_eq_true_eq]
  omega

/-- C3: shift resolution.  If `find?` on the active, scope-matched,
priority-descending rule list returns a `custom_shift` rule `r`, then `r`
is an active matching custom-shift rule of maximal priority among them,
and (when its params are present) its `params.shiftStart/shiftEnd` become
the day's shift window; if no active matching `custom_shift` rule exists,
Saturday gets `10:00–16:00` and every other day `09:00–17:00`. -/
theorem shift_resolution (rules : List SpecialRule) (employee : Employee)
    (normCode : String) (dayIdx : Int) :
    (∀ r, (activeRulesFor rules employee normCode dayIdx).find?
        (fun r' => decide (r'.ruleType = "custom_shift")) = some r →
      r.ruleType = "custom_shift" ∧ r ∈ rules ∧
      ruleActiveOn r dayIdx = true ∧
      ruleScopeMatchesActive r.scope employee normCode = true ∧
      (∀ r' ∈ rules, ruleActiveOn r' dayIdx = true →
        ruleScopeMatchesActive r'.scope employee normCode = true →
        r'.ruleType = "custom_shift" → r'.priority ≤ r.priority) ∧
      (r.params.shiftStart ≠ "" → r.params.shiftEnd ≠ "" →
        shiftWindowOf (activeRulesFor rules employee normCode dayIdx)
          (decide ((dayIdx + 4).emod 7 = 6)) = (r.params.shiftStart, r.params.shiftEnd))) ∧
    ((activeRulesFor rules employee normCode dayIdx).find?
        (fun r' => decide (r'.ruleType = "custom_shift")) = none →
      (∀ r' ∈ rules, ruleActiveOn r' dayIdx = true →
        ruleScopeMatchesActive r'.scope employee normCode = true →
        r'.ruleType ≠ "custom_shift") ∧
      shiftWindowOf (activeRulesFor rules employee normCode dayIdx)
        (decide ((dayIdx + 4).emod 7 = 6)) =
        (if (dayIdx + 4).emod 7 = 6 then ("10:00", "16:00") else ("09:00", "17:00"))) := by
  constructor
  · intro r hf
    have hmemsort : r ∈ activeRulesFor rules employee normCode dayIdx :=
      List.mem_of_find?_eq_some hf
    have hmemfilter : r ∈ rules.filter
        (fun r' => ruleActiveOn r' dayIdx && ruleScopeMatchesActive r'.scope employee normCode) := by
      rw [activeRulesFor, mem_sortByLe] at hmemsort
      exact hmemsort
    rcases List.mem_filter.mp hmemfilter with ⟨hmem, hcond⟩
    have hcond' : ruleActiveOn r dayIdx = true ∧
        ruleScopeMatchesActive r.scope employee normCode = true := by simpa using hcond
    rcases hcond' with ⟨hact, hscope⟩
    have htype : r.ruleType = "custom_shift" := by
      have := List.find?_some hf
      simpa using this
    refine ⟨htype, hmem, hact, hscope, ?_, ?_⟩
    · intro r' hmem' hact' hscope' htype'
      have hmax := find?_max_of_pairwise rulePriorityLe
        (fun x => decide (x.ruleType = "custom_shift"))
        (fun a => by simp [rulePriorityLe])
        (activeRulesFor rules employee normCode dayIdx) r
        (pairwise_sortByLe rulePriorityLe rulePriorityLe_trans rulePriorityLe_total _) hf
      have hmem'' : r' ∈ activeRulesFor rules employee normCode dayIdx := by
        rw [activeRulesFor, mem_sortByLe]
        exact List.mem_filter.mpr ⟨hmem', by rw [hact', hscope']; rfl⟩
      have := hmax r' hmem'' (by simpa using htype')
      simpa [rulePriorityLe] using this
    · intro hs he
      simp only [shiftWindowOf, hf, if_pos hs, if_pos he]
  · intro hf
    have hnone := List.find?_eq_none.mp hf
    constructor
    · intro r' hmem' hact' hscope' htype'
      have hmem'' : r' ∈ activeRulesFor rules employee normCode dayIdx := by
        rw [activeRulesFor, mem_sortByLe]
        exact List.mem_filter.mpr ⟨hmem', by rw [hact', hscope']; rfl⟩
      have := hnone r' hmem''
      simp [htype'] at this
    · simp only [shiftWindowOf, hf]
      split_ifs with h1 h2 h2 <;> simp_all

/-- Witness for C3: of two active matching `custom_shift` rules the
higher-priority one (priority 5, listed second) supplies the window. -/
theorem shift_resolution_witness :
    shiftWindowOf
      (activeRulesFor
        [⟨1, "all", "custom_shift", "2024-06-01", "2024-06-30", 1, ⟨"08:00", "16:00", ""⟩⟩,
         ⟨2, "all", "custom_shift", "2024-06-01", "2024-06-30", 5, ⟨"10:00", "18:00", ""⟩⟩]
        ⟨"101", none, none, none, none, "09:00"⟩ "101" 19877)
      (decide (((19877 : Int) + 4).emod 7 = 6)) = ("10:00", "18:00") :=
  ((shift_resolution
      [⟨1, "all", "custom_shift", "2024-06-01", "2024-06-30", 1, ⟨"08:00", "16:00", ""⟩⟩,
       ⟨2, "all", "custom_shift", "2024-06-01", "2024-06-30", 5, ⟨"10:00", "18:00", ""⟩⟩]
      ⟨"101", none, none, none, none, "09:00"⟩ "101" 19877).1
    ⟨2, "all", "custom_shift", "2024-06-01", "2024-06-30", 5, ⟨"10:00", "18:00", ""⟩⟩
    (by decide)).2.2.2.2.2 (by decide) (by decide)

/-- `insertLe` permutes. -/
theorem insertLe_perm (le : α → α → Bool) (x : α) (l : List α) :
    (insertLe le x l).Perm (x :: l) := by
  induction l with
  | nil => simp [insertLe]
  | cons y ys ih =>
    simp only [insertLe]
    split_ifs
    · exact (ih.cons y).trans (List.Perm.swap x y ys)
    · exact List.Perm.refl _

/-- The insertion-sort fold permutes. -/
theorem sortByLe_fold_perm (le : α → α → Bool) (l : List α) :
    ∀ acc : List α, (l.foldl (fun acc x => insertLe le x acc) acc).Perm (acc ++ l) := by
  induction l with
  | nil => simp
  | cons x xs ih =>
    intro acc
    simp only [List.foldl_cons]
    refine (ih (insertLe le x acc)).trans ?_
    refine (List.Perm.append_right xs (insertLe_perm le x acc)).trans ?_
    exact List.perm_middle.symm

/-- `sortByLe` permutes its input. -/
theorem sortByLe_perm (le : α → α → Bool) (l : List α) : (sortByLe le l).Perm l := by
  simpa using sortByLe_fold_perm le l []

/-- `mapFind?` after a `mapSet` on another key. -/
theorem mapFind?_mapSet_ne [DecidableEq κ] (m : List (κ × α)) (k k' : κ) (v : α)
    (h : k ≠ k') : mapFind? (mapSet m k v) k' = mapFind? m k' := by
  induction m with
  | nil => simp [mapSet, mapFind?, List.find?_cons, h]
  | cons hd tl ih =>
    obtain ⟨kh, vh⟩ := hd
    by_cases hk : kh = k
    · subst hk
      simp [mapSet, mapFind?, List.find?_cons, h]
    · by_cases hk' : kh = k'
      · subst hk'
        simp [mapSet, mapFind?, List.find?_cons, hk]
      · simp only [mapSet, if_neg hk]
        have hd : decide (kh = k') = false := by simp [hk']
        simp only [mapFind?, List.find?_cons] at ih ⊢
        simp only [hd]
        exact ih

/-- `mapGetD` after a `mapSet` on another key. -/
theorem mapGetD_mapSet_ne [DecidableEq κ] (m : List (κ × α)) (k k' : κ) (v : α) (d : α)
    (h : k ≠ k') : mapGetD (mapSet m k v) k' d = mapGetD m k' d := by
  simp only [mapGetD, mapFind?_mapSet_ne m k k' v h]

/-- Overwriting the same key twice collapses to the last write. -/
theorem mapSet_mapSet_same [DecidableEq κ] (m : List (κ × α)) (k : κ) (v w : α) :
    mapSet (mapSet m k v) k w = mapSet m k w := by
  induction m with
  | nil => simp [mapSet]
  | cons hd tl ih =>
    obtain ⟨kh, vh⟩ := hd
    by_cases hk : kh = k
    · subst hk
      simp [mapSet]
    · simp [mapSet, hk, ih]

/-- Re-writing the same two distinct keys overwrites the earlier pair of
writes. -/
theorem mapSet_collapse [DecidableEq κ] (m : List (κ × α)) (a b : κ) (X Y X' Y' : α)
    (hab : a ≠ b) :
    mapSet (mapSet (mapSet (mapSet m a X) b Y) a X') b Y' =
    mapSet (mapSet m a X') b Y' := by
  have hba : b ≠ a := Ne.symm hab
  induction m with
  | nil => simp [mapSet, hab, hba]
  | cons hd tl ih =>
    obtain ⟨kh, vh⟩ := hd
    by_cases hka : kh = a
    · subst hka
      simp [mapSet, hab, mapSet_mapSet_same]
    · by_cases hkb : kh = b
      · subst hkb
        simp [mapSet, hba, mapSet_mapSet_same]
      · simp [mapSet, hka, hkb, ih]

/-- `mapFind?` at the head key. -/
theorem mapFind?_cons_self [DecidableEq κ] (k : κ) (v : α) (tl : List (κ × α)) :
    mapFind? ((k, v) :: tl) k = some v := by
  simp [mapFind?, List.find?_cons]

/-- `mapFind?` past a different head key. -/
theorem mapFind?_cons_ne [DecidableEq κ] (kh k : κ) (vh : α) (tl : List (κ × α))
    (h : kh ≠ k) : mapFind? ((kh, vh) :: tl) k = mapFind? tl k := by
  simp [mapFind?, List.find?_cons, h]

/-- The bag of a cons. -/
theorem bagM_cons (k : Int) (v : List BiometricPunch) (tl : List (Int × List BiometricPunch)) :
    bagM ((k, v) :: tl) = (v : Multiset BiometricPunch) + bagM tl := by
  simp only [bagM, bagList, List.map_cons, List.flatten_cons]
  rw [Multiset.coe_add]

/-- The bag of a `mapSet`: the new value replaces the first stored value
of the key (or is appended); all other buckets are unchanged. -/
theorem bagM_mapSet (m : List (Int × List BiometricPunch)) (k : Int)
    (v : List BiometricPunch) :
    bagM (mapSet m k v) + (↑(mapGetD m k ([] : List BiometricPunch)) : Multiset BiometricPunch) =
      (v : Multiset BiometricPunch) + bagM m := by
  induction m with
  | nil => simp [mapSet, mapGetD, mapFind?, bagM, bagList]
  | cons hd tl ih =>
    obtain ⟨kh, vh⟩ := hd
    by_cases hk : kh = k
    · subst hk
      rw [show mapSet ((kh, vh) :: tl) kh v = (kh, v) :: tl by simp [mapSet]]
      rw [bagM_cons, bagM_cons]
      rw [show mapGetD ((kh, vh) :: tl) kh ([] : List BiometricPunch) = vh by
        simp [mapGetD, mapFind?_cons_self]]
      abel
    · rw [show mapSet ((kh, vh) :: tl) k v = (kh, vh) :: mapSet tl k v by
        simp [mapSet, hk]]
      rw [bagM_cons, bagM_cons]
      rw [show mapGetD ((kh, vh) :: tl) k ([] : List BiometricPunch) =
          mapGetD tl k [] by simp [mapGetD, mapFind?_cons_ne kh k vh tl hk]]
      rw [add_assoc, ih]
      abel

/-- A stored bucket value is a sublist of the bag. -/
theorem mapFind?_sublist_bagList (m : List (Int × List BiometricPunch)) (k : Int)
    (v : List BiometricPunch) (h : mapFind? m k = some v) : v.Sublist (bagList m) := by
  simp only [mapFind?] at h
  obtain ⟨e, he, heq⟩ := Option.map_eq_some'.mp h
  have hmem : e ∈ m := List.mem_of_find?_eq_some he
  have : v ∈ m.map Prod.snd := by
    rw [← heq]
    exact List.mem_map_of_mem Prod.snd hmem
  exact List.sublist_flatten_of_mem this

/-- Dropping one occurrence (by unique id) and re-appending the element is
a permutation. -/
theorem filter_ne_id_append_perm (l : List BiometricPunch) (p : BiometricPunch)
    (hp : p ∈ l) (hnd : (l.map (fun x => x.id)).Nodup) :
    (l.filter (fun x => x.id ≠ p.id) ++ [p]).Perm l := by
  induction l with
  | nil => simp at hp
  | cons a t ih =>
    have hnd' : a.id ∉ t.map (fun x => x.id) ∧ (t.map (fun x => x.id)).Nodup := by
      simpa [List.nodup_cons] using hnd
    obtain ⟨haid, hndt⟩ := hnd'
    by_cases hid : a.id = p.id
    · have hpa : p = a := by
        rcases List.mem_cons.mp hp with h | h
        · exact h
        · have hmem : p.id ∈ t.map (fun x => x.id) := List.mem_map_of_mem _ h
          rw [← hid] at hmem
          exact absurd hmem haid
      have hfilt : t.filter (fun x => x.id ≠ p.id) = t := by
        apply List.filter_eq_self.mpr
        intro x hx
        simp only [decide_eq_true_eq]
        intro hxp
        apply haid
        rw [hid, ← hxp]
        exact List.mem_map_of_mem _ hx
      have hdrop : (a :: t).filter (fun x => x.id ≠ p.id) = t := by
        rw [List.filter_cons_of_neg (by simpa using hid), hfilt]
      rw [hdrop, hpa]
      exact List.perm_append_singleton a t
    · have hpt : p ∈ t := by
        rcases List.mem_cons.mp hp with h | h
        · exfalso
          apply hid
          rw [h]
        · exact h
      rw [List.filter_cons_of_pos (by simpa using hid), List.cons_append]
      exact (ih hpt hndt).cons a

/-- The bag after two `mapSet`s on distinct keys. -/
theorem bagM_double_mapSet (m : List (Int × List BiometricPunch)) (k1 k2 : Int)
    (hne : k1 ≠ k2) (X Y : List BiometricPunch) :
    bagM (mapSet (mapSet m k1 X) k2 Y) +
      (↑(mapGetD m k1 ([] : List BiometricPunch)) : Multiset BiometricPunch) +
      ↑(mapGetD m k2 ([] : List BiometricPunch)) =
    (X : Multiset BiometricPunch) + (Y : Multiset BiometricPunch) + bagM m := by
  have e1 := bagM_mapSet m k1 X
  have e2 := bagM_mapSet (mapSet m k1 X) k2 Y
  rw [mapGetD_mapSet_ne m k1 k2 X [] hne] at e2
  calc bagM (mapSet (mapSet m k1 X) k2 Y) +
        (↑(mapGetD m k1 ([] : List BiometricPunch)) : Multiset BiometricPunch) +
        ↑(mapGetD m k2 ([] : List BiometricPunch))
      = (bagM (mapSet (mapSet m k1 X) k2 Y) +
          ↑(mapGetD m k2 ([] : List BiometricPunch))) +
          ↑(mapGetD m k1 ([] : List BiometricPunch)) := by abel
    _ = ((Y : Multiset BiometricPunch) + bagM (mapSet m k1 X)) +
          ↑(mapGetD m k1 ([] : List BiometricPunch)) := by rw [e2]
    _ = (Y : Multiset BiometricPunch) + (bagM (mapSet m k1 X) +
          ↑(mapGetD m k1 ([] : List BiometricPunch))) := by abel
    _ = (Y : Multiset BiometricPunch) + ((X : Multiset BiometricPunch) + bagM m) := by
          rw [e1]
    _ = (X : Multiset BiometricPunch) + (Y : Multiset BiometricPunch) + bagM m := by abel

/-- The move-branch write conserves the bag of punches, provided the moved
punch occurs (by id) exactly once in the day's snapshot bucket. -/
theorem bagM_writeBuckets (m : List (Int × List BiometricPunch)) (dayIdx : Int)
    (dayL prevL : List BiometricPunch) (q : BiometricPunch)
    (hday : mapGetD m dayIdx [] = dayL) (hprev : mapGetD m (dayIdx - 1) [] = prevL)
    (hq : q ∈ dayL) (hnd : (dayL.map (fun x => x.id)).Nodup) :
    bagM (writeBuckets m dayIdx dayL prevL q) = bagM m := by
  have hne : dayIdx ≠ dayIdx - 1 := by omega
  have hrw : writeBuckets m dayIdx dayL prevL q =
      mapSet (mapSet m dayIdx (sortByLe punchLeB (dayL.filter (fun item => item.id ≠ q.id))))
        (dayIdx - 1) (sortByLe punchLeB (prevL ++ [q])) := rfl
  have h := bagM_double_mapSet m dayIdx (dayIdx - 1) hne
    (sortByLe punchLeB (dayL.filter (fun item => item.id ≠ q.id)))
    (sortByLe punchLeB (prevL ++ [q]))
  rw [hday, hprev] at h
  have pX : (↑(sortByLe punchLeB (dayL.filter (fun item => item.id ≠ q.id))) :
      Multiset BiometricPunch) + ↑[q] = ↑dayL := by
    have h1 : (↑(sortByLe punchLeB (dayL.filter (fun item => item.id ≠ q.id))) :
        Multiset BiometricPunch) = ↑(dayL.filter (fun item => item.id ≠ q.id)) :=
      Multiset.coe_eq_coe.mpr (sortByLe_perm _ _)
    rw [h1, Multiset.coe_add]
    exact Multiset.coe_eq_coe.mpr (filter_ne_id_append_perm dayL q hq hnd)
  have pY : (↑(sortByLe punchLeB (prevL ++ [q])) : Multiset BiometricPunch) =
      ↑prevL + ↑[q] := by
    have h1 : (↑(sortByLe punchLeB (prevL ++ [q])) : Multiset BiometricPunch) =
        ↑(prevL ++ [q]) := Multiset.coe_eq_coe.mpr (sortByLe_perm _ _)
    rw [h1, ← Multiset.coe_add]
  have hXY : (↑(sortByLe punchLeB (dayL.filter (fun item => item.id ≠ q.id))) :
        Multiset BiometricPunch) + ↑(sortByLe punchLeB (prevL ++ [q])) =
      (↑dayL : Multiset BiometricPunch) + ↑prevL := by
    rw [pY, ← pX]
    abel
  have key : bagM (writeBuckets m dayIdx dayL prevL q) +
      ((↑dayL : Multiset BiometricPunch) + ↑prevL) =
      bagM m + ((↑dayL : Multiset BiometricPunch) + ↑prevL) := by
    rw [hrw]
    calc bagM (mapSet (mapSet m dayIdx
            (sortByLe punchLeB (dayL.filter (fun item => item.id ≠ q.id))))
          (dayIdx - 1) (sortByLe punchLeB (prevL ++ [q]))) +
          ((↑dayL : Multiset BiometricPunch) + ↑prevL)
        = bagM (mapSet (mapSet m dayIdx
            (sortByLe punchLeB (dayL.filter (fun item => item.id ≠ q.id))))
          (dayIdx - 1) (sortByLe punchLeB (prevL ++ [q]))) + ↑dayL + ↑prevL := by abel
      _ = (↑(sortByLe punchLeB (dayL.filter (fun item => item.id ≠ q.id))) :
            Multiset BiometricPunch) + ↑(sortByLe punchLeB (prevL ++ [q])) + bagM m := h
      _ = ((↑dayL : Multiset BiometricPunch) + ↑prevL) + bagM m := by rw [hXY]
      _ = bagM m + ((↑dayL : Multiset BiometricPunch) + ↑prevL) := by abel
  exact add_right_cancel key

/-- Two move-branch writes (derived from the same snapshots) collapse to
the last one. -/
theorem writeBuckets_writeBuckets (m : List (Int × List BiometricPunch)) (dayIdx : Int)
    (dayL prevL : List BiometricPunch) (p q : BiometricPunch) :
    writeBuckets (writeBuckets m dayIdx dayL prevL p) dayIdx dayL prevL q =
    writeBuckets m dayIdx dayL prevL q := by
  have hne : dayIdx ≠ dayIdx - 1 := by omega
  simp only [writeBuckets]
  exact mapSet_collapse m dayIdx (dayIdx - 1) _ _ _ _ hne

/-- Shape invariant of the inner `forEach`: the buckets are either
untouched, or exactly one snapshot-derived write (for some reassigned
punch of the day's snapshot bucket) applied to the day-start buckets. -/
theorem overnightMove_fold_shape (offset : Int) (ssh : Option Int) (dayIdx : Int)
    (dayL prevL : List BiometricPunch) (m0 : List (Int × List BiometricPunch))
    (ps : List BiometricPunch) :
    ∀ acc : OvernightState,
      (∀ q ∈ ps, q ∈ dayL) →
      (acc.buckets = m0 ∨ ∃ p ∈ dayL, acc.buckets = writeBuckets m0 dayIdx dayL prevL p) →
      ((ps.foldl (overnightMoveStep offset ssh dayIdx dayL prevL) acc).buckets = m0 ∨
        ∃ p ∈ dayL, (ps.foldl (overnightMoveStep offset ssh dayIdx dayL prevL) acc).buckets =
          writeBuckets m0 dayIdx dayL prevL p) := by
  induction ps with
  | nil =>
    intro acc _ hQ
    simpa using hQ
  | cons q qs ih =>
    intro acc hmem hQ
    simp only [List.foldl_cons]
    apply ih
    · intro x hx
      exact hmem x (List.mem_cons_of_mem _ hx)
    · have hqday : q ∈ dayL := hmem q (List.mem_cons_self q qs)
      simp only [overnightMoveStep]
      split_ifs with h1 h2 h3
      · exact hQ
      · exact hQ
      · rcases hQ with h | ⟨p, hp, h⟩
        · right
          exact ⟨q, hqday, by rw [h]⟩
        · right
          refine ⟨q, hqday, ?_⟩
          show writeBuckets acc.buckets dayIdx dayL prevL q = _
          rw [h, writeBuckets_writeBuckets]
      · exact hQ

/-- One day of the overnight pass conserves the bag of punches (punch ids
across all buckets assumed distinct). -/
theorem overnightStep_bag (offset : Int) (ssh : Option Int) (st : OvernightState)
    (dayIdx : Int)
    (hnd : ((bagList st.buckets).map (fun p => p.id)).Nodup) :
    bagM (overnightStep offset ssh st dayIdx).buckets = bagM st.buckets := by
  simp only [overnightStep]
  by_cases h1 : (mapGetD st.buckets dayIdx []).length = 0
  · rw [if_pos h1]
  · rw [if_neg h1]
    by_cases h2 : ((mapGetD st.buckets dayIdx []).filter
        (fun p => isOvernightPunch (p.punchDatetime - offset * 60000))).length = 0
    · rw [if_pos h2]
    · rw [if_neg h2]
      have hfind : mapFind? st.buckets dayIdx = some (mapGetD st.buckets dayIdx []) := by
        cases hf : mapFind? st.buckets dayIdx with
        | none =>
          exfalso
          apply h1
          simp [mapGetD, hf]
        | some v => simp [mapGetD, hf]
      have hsub : (mapGetD st.buckets dayIdx []).Sublist (bagList st.buckets) :=
        mapFind?_sublist_bagList _ _ _ hfind
      have hndday : ((mapGetD st.buckets dayIdx []).map (fun p => p.id)).Nodup :=
        hnd.sublist (hsub.map _)
      have hshape := overnightMove_fold_shape offset ssh dayIdx
        (mapGetD st.buckets dayIdx []) (mapGetD st.buckets (dayIdx - 1) []) st.buckets
        ((mapGetD st.buckets dayIdx []).filter
          (fun p => isOvernightPunch (p.punchDatetime - offset * 60000))) st
        (fun q hq => List.mem_of_mem_filter hq) (Or.inl rfl)
      rcases hshape with h | ⟨p, hp, h⟩
      · rw [h]
      · rw [h]
        exact bagM_writeBuckets st.buckets dayIdx _ _ p rfl rfl hp hndday

/-- The whole overnight pass conserves the bag of punches. -/
theorem overnightPass_fold_bag (offset : Int) (ssh : Option Int) (days : List Int) :
    ∀ st : OvernightState, ((bagList st.buckets).map (fun p => p.id)).Nodup →
      bagM ((days.foldl (overnightStep offset ssh) st).buckets) = bagM st.buckets := by
  induction days with
  | nil =>
    intro st _
    rfl
  | cons d ds ih =>
    intro st hnd
    simp only [List.foldl_cons]
    have hstep := overnightStep_bag offset ssh st d hnd
    have hnd' : ((bagList (overnightStep offset ssh st d).buckets).map
        (fun p => p.id)).Nodup := by
      have hperm : (bagList (overnightStep offset ssh st d).buckets).Perm
          (bagList st.buckets) := Multiset.coe_eq_coe.mp hstep
      exact ((hperm.map _).nodup_iff).mpr hnd
    rw [ih _ hnd', hstep]

/-- C2 (amended): the overnight-reclassification pass conserves punches as
a whole — with distinct punch ids, the multiset of punches across all
per-day buckets (and hence the total punch count) is unchanged by the
pass.  (Per punch, only the last reassigned punch of a day is actually
moved to day D−1; see the counterexample for the original claim.) -/
theorem overnight_pass_punch_conservation (offset : Int) (shiftStartHour : Option Int)
    (startIdx endIdx : Int) (st : OvernightState)
    (hnd : ((bagList st.buckets).map (fun p => p.id)).Nodup) :
    bagM (overnightPass offset shiftStartHour startIdx endIdx st).buckets = bagM st.buckets ∧
    totalPunchCount (overnightPass offset shiftStartHour startIdx endIdx st).buckets =
      totalPunchCount st.buckets := by
  have h := overnightPass_fold_bag offset shiftStartHour (dayRangeList startIdx endIdx) st hnd
  refine ⟨h, ?_⟩
  have hperm : (bagList (overnightPass offset shiftStartHour startIdx endIdx st).buckets).Perm
      (bagList st.buckets) := Multiset.coe_eq_coe.mp h
  simpa [totalPunchCount] using hperm.length_eq

/-- Witness for C2's amended theorem: the two-overnight-punch scenario
(one check-in on the previous day, two overnight punches on the next)
keeps all three punches across the buckets. -/
theorem overnight_pass_punch_conservation_witness :
    ((bagList (⟨bucketPunchesFor (-120) ⟨"101", none, none, none, none, "09:00"⟩
        [⟨1, "101", 1717617600000⟩, ⟨2, "101", 1717626600000⟩, ⟨3, "101", 1717628400000⟩],
      [], []⟩ : OvernightState).buckets).map (fun p => p.id)).Nodup ∧
    totalPunchCount (overnightPass (-120) (some 9) 19879 19880
      ⟨bucketPunchesFor (-120) ⟨"101", none, none, none, none, "09:00"⟩
        [⟨1, "101", 1717617600000⟩, ⟨2, "101", 1717626600000⟩, ⟨3, "101", 1717628400000⟩],
      [], []⟩).buckets =
      totalPunchCount (⟨bucketPunchesFor (-120) ⟨"101", none, none, none, none, "09:00"⟩
        [⟨1, "101", 1717617600000⟩, ⟨2, "101", 1717626600000⟩, ⟨3, "101", 1717628400000⟩],
      [], []⟩ : OvernightState).buckets :=
  ⟨by decide,
   (overnight_pass_punch_conservation (-120) (some 9) 19879 19880
     ⟨bucketPunchesFor (-120) ⟨"101", none, none, none, none, "09:00"⟩
       [⟨1, "101", 1717617600000⟩, ⟨2, "101", 1717626600000⟩, ⟨3, "101", 1717628400000⟩],
      [], []⟩ (by decide)).2⟩

/-- C2 (counterexample): with a check-in (22:00) on 2024-06-05 and two
overnight punches (00:30 and 01:00) on 2024-06-06, the pass reassigns both
— marking the 00:30 punch consumed for 2024-06-06 — yet that punch stays
in 2024-06-06's bucket and is never appended to 2024-06-05's bucket, so a
reassigned punch is not always removed from day D and appended to day
D−1. -/
theorem overnight_move_claim_counterexample :
    ((mapGetD (overnightPass (-120) (some 9) 19879 19880
        ⟨bucketPunchesFor (-120) ⟨"101", none, none, none, none, "09:00"⟩
          [⟨1, "101", 1717617600000⟩, ⟨2, "101", 1717626600000⟩, ⟨3, "101", 1717628400000⟩],
         [], []⟩).consumed 19880 []).contains
      (buildPunchConsumptionKey "101" 1717626600000) = true) ∧
    (⟨2, "101", 1717626600000⟩ : BiometricPunch) ∈
      mapGetD (overnightPass (-120) (some 9) 19879 19880
        ⟨bucketPunchesFor (-120) ⟨"101", none, none, none, none, "09:00"⟩
          [⟨1, "101", 1717617600000⟩, ⟨2, "101", 1717626600000⟩, ⟨3, "101", 1717628400000⟩],
         [], []⟩).buckets 19880 [] ∧
    (⟨2, "101", 1717626600000⟩ : BiometricPunch) ∉
      mapGetD (overnightPass (-120) (some 9) 19879 19880
        ⟨bucketPunchesFor (-120) ⟨"101", none, none, none, none, "09:00"⟩
          [⟨1, "101", 1717617600000⟩, ⟨2, "101", 1717626600000⟩, ⟨3, "101", 1717628400000⟩],
         [], []⟩).buckets 19879 [] := by decide

end HRA
